import Mathlib

/-!
Verification development for the webview-rpc repository.

The development shallowly embeds the message-correlation and dispatch core of
the two RPC clients:

* the web client, from src/packages/web/src/client.ts
* the native client, from src/unnamed/part_018 (the native client.ts)

together with the shared core:

* message types, from src/unnamed/part_012 (core types.ts)
* error classes, from src/packages/core/src/errors.ts
* the default JSON serializer/deserializer, from src/unnamed/part_016
  (core transport.ts), modelled by an executable JSON printer and parser
  over a JSON value type.

Payloads are opaque to the clients; they are modelled as JSON values with
exact integer numbers.  Mutable per-client maps become association lists with
JavaScript Map semantics; promise resolution, rejection, timer manipulation,
message posting and the configurable error sink become an explicit effect
list returned by each operation.
-/

namespace WebViewRpc

/-- A JSON value: the model of the dynamic values that cross the bridge.
Numbers are modelled as exact integers (the integral subrange of JS numbers
that JSON.stringify prints exactly). -/
inductive JValue where
  | null : JValue
  | bool (b : Bool) : JValue
  | num (n : Int) : JValue
  | str (s : String) : JValue
  | arr (elems : List JValue) : JValue
  | obj (fields : List (String × JValue)) : JValue

/-- Decimal digit to character, as produced when JSON.stringify prints a
number. -/
def digitChar : Nat → Char
  | 0 => '0' | 1 => '1' | 2 => '2' | 3 => '3' | 4 => '4'
  | 5 => '5' | 6 => '6' | 7 => '7' | 8 => '8' | _ => '9'

/-- Decimal representation of a natural number, most significant digit
first. -/
def natChars (n : Nat) : List Char :=
  if _h : n < 10 then [digitChar n]
  else natChars (n / 10) ++ [digitChar (n % 10)]
  decreasing_by exact Nat.div_lt_self (by omega) (by omega)

/-- Decimal representation of an integer, as JSON.stringify prints it. -/
def intChars (n : Int) : List Char :=
  if n < 0 then '-' :: natChars n.natAbs else natChars n.toNat

/-- Lowercase hexadecimal digit. -/
def hexDigitChar : Nat → Char
  | 0 => '0' | 1 => '1' | 2 => '2' | 3 => '3' | 4 => '4'
  | 5 => '5' | 6 => '6' | 7 => '7' | 8 => '8' | 9 => '9'
  | 10 => 'a' | 11 => 'b' | 12 => 'c' | 13 => 'd' | 14 => 'e' | _ => 'f'

/-- How JSON.stringify escapes one character inside a string literal:
quote and backslash get a backslash escape, the common control characters
get their short escapes, the remaining control characters get a
four-hex-digit unicode escape, and every other character is emitted
verbatim. -/
def escapeChar (c : Char) : List Char :=
  if c = '"' then ['\\', '"']
  else if c = '\\' then ['\\', '\\']
  else if c = '\n' then ['\\', 'n']
  else if c = '\t' then ['\\', 't']
  else if c = '\r' then ['\\', 'r']
  else if c = '\x08' then ['\\', 'b']
  else if c = '\x0c' then ['\\', 'f']
  else if c.toNat < 32 then
    ['\\', 'u', '0', '0', hexDigitChar (c.toNat / 16), hexDigitChar (c.toNat % 16)]
  else [c]

/-- A JSON string literal, quotes included. -/
def encStr (s : String) : List Char :=
  '"' :: (s.data.flatMap escapeChar) ++ ['"']

mutual

/-- JSON.stringify on a JSON value (JSON.stringify emits no whitespace). -/
def printJ : JValue → List Char
  | .null => ['n', 'u', 'l', 'l']
  | .bool b => if b then ['t', 'r', 'u', 'e'] else ['f', 'a', 'l', 's', 'e']
  | .num n => intChars n
  | .str s => encStr s
  | .arr xs => '[' :: printArr xs ++ [']']
  | .obj fs => '\x7b' :: printObj fs ++ ['\x7d']

/-- Comma-separated elements of a JSON array. -/
def printArr : List JValue → List Char
  | [] => []
  | [x] => printJ x
  | x :: y :: rest => printJ x ++ ',' :: printArr (y :: rest)

/-- Comma-separated key-value pairs of a JSON object. -/
def printObj : List (String × JValue) → List Char
  | [] => []
  | [(k, v)] => encStr k ++ ':' :: printJ v
  | (k, v) :: f :: rest => encStr k ++ ':' :: printJ v ++ ',' :: printObj (f :: rest)

end

/-- Numeric value of a hexadecimal digit character, if it is one. -/
def hexVal (c : Char) : Option Nat :=
  if c.isDigit then some (c.toNat - 48)
  else if 'a' ≤ c ∧ c ≤ 'f' then some (c.toNat - 87)
  else if 'A' ≤ c ∧ c ≤ 'F' then some (c.toNat - 55)
  else none

/-- Numeric value of a run of decimal digit characters. -/
def digitsToNat (digs : List Char) : Nat :=
  digs.foldl (fun a c => a * 10 + (c.toNat - 48)) 0

/-- Prepend a character to the string under construction inside the string
parser. -/
def mapCons (c : Char) : Option (List Char × List Char) → Option (List Char × List Char)
  | some (cs, r) => some (c :: cs, r)
  | none => none

/-- Parser for the body of a JSON string literal (the opening quote already
consumed); returns the decoded characters and the input after the closing
quote.  Fueled by one unit per decoded character. -/
def parseStrBody : Nat → List Char → Option (List Char × List Char)
  | 0, _ => none
  | fuel + 1, cs =>
    match cs with
    | [] => none
    | c :: rest =>
      if c = '"' then some ([], rest)
      else if c = '\\' then
        match rest with
        | [] => none
        | e :: rest₁ =>
          if e = '"' then mapCons '"' (parseStrBody fuel rest₁)
          else if e = '\\' then mapCons '\\' (parseStrBody fuel rest₁)
          else if e = '/' then mapCons '/' (parseStrBody fuel rest₁)
          else if e = 'n' then mapCons '\n' (parseStrBody fuel rest₁)
          else if e = 't' then mapCons '\t' (parseStrBody fuel rest₁)
          else if e = 'r' then mapCons '\r' (parseStrBody fuel rest₁)
          else if e = 'b' then mapCons '\x08' (parseStrBody fuel rest₁)
          else if e = 'f' then mapCons '\x0c' (parseStrBody fuel rest₁)
          else if e = 'u' then
            match rest₁ with
            | h1 :: h2 :: h3 :: h4 :: rest₂ =>
              match hexVal h1, hexVal h2, hexVal h3, hexVal h4 with
              | some a, some b, some c2, some d =>
                mapCons (Char.ofNat (((a * 16 + b) * 16 + c2) * 16 + d)) (parseStrBody fuel rest₂)
              | _, _, _, _ => none
            | _ => none
          else none
      else mapCons c (parseStrBody fuel rest)

mutual

/-- Recursive-descent parser for one JSON value (model of JSON.parse on the
whitespace-free grammar that JSON.stringify emits), returning the value and
the remaining input. -/
def parseJ : Nat → List Char → Option (JValue × List Char)
  | 0, _ => none
  | fuel + 1, cs =>
    match cs with
    | [] => none
    | c :: rest =>
      if c.isDigit then
        match (c :: rest).takeWhile Char.isDigit, (c :: rest).dropWhile Char.isDigit with
        | digs, rest₂ => some (.num ((digitsToNat digs : Int)), rest₂)
      else if c = '-' then
        match rest.takeWhile Char.isDigit, rest.dropWhile Char.isDigit with
        | [], _ => none
        | digs, rest₂ => some (.num (-(digitsToNat digs : Int)), rest₂)
      else if c = 'n' then
        match rest with
        | 'u' :: 'l' :: 'l' :: r => some (.null, r)
        | _ => none
      else if c = 't' then
        match rest with
        | 'r' :: 'u' :: 'e' :: r => some (.bool true, r)
        | _ => none
      else if c = 'f' then
        match rest with
        | 'a' :: 'l' :: 's' :: 'e' :: r => some (.bool false, r)
        | _ => none
      else if c = '"' then
        match parseStrBody fuel rest with
        | some (content, r) => some (.str ⟨content⟩, r)
        | none => none
      else if c = '[' then
        if rest.head? = some ']' then some (.arr [], rest.tail)
        else
          match parseElems fuel rest with
          | some (xs, r) => some (.arr xs, r)
          | none => none
      else if c = '\x7b' then
        if rest.head? = some '\x7d' then some (.obj [], rest.tail)
        else
          match parseFields fuel rest with
          | some (fs, r) => some (.obj fs, r)
          | none => none
      else none

/-- Parser for the elements of a nonempty JSON array, consuming the closing
bracket. -/
def parseElems : Nat → List Char → Option (List JValue × List Char)
  | 0, _ => none
  | fuel + 1, cs =>
    match parseJ fuel cs with
    | none => none
    | some (v, rest) =>
      match rest with
      | ',' :: rest₁ =>
        match parseElems fuel rest₁ with
        | some (xs, r) => some (v :: xs, r)
        | none => none
      | ']' :: rest₁ => some ([v], rest₁)
      | _ => none

/-- Parser for the fields of a nonempty JSON object, consuming the closing
brace. -/
def parseFields : Nat → List Char → Option (List (String × JValue) × List Char)
  | 0, _ => none
  | fuel + 1, cs =>
    match cs with
    | '"' :: rest =>
      match parseStrBody fuel rest with
      | none => none
      | some (k, rest₁) =>
        match rest₁ with
        | ':' :: rest₂ =>
          match parseJ fuel rest₂ with
          | none => none
          | some (v, rest₃) =>
            match rest₃ with
            | ',' :: rest₄ =>
              match parseFields fuel rest₄ with
              | some (fs, r) => some ((⟨k⟩, v) :: fs, r)
              | none => none
            | '\x7d' :: rest₄ => some ([(⟨k⟩, v)], rest₄)
            | _ => none
        | _ => none
    | _ => none

end

mutual

/-- Fuel sufficient to parse the printed form of a value. -/
def fuelJ : JValue → Nat
  | .null => 1
  | .bool _ => 1
  | .num _ => 1
  | .str s => s.data.length + 2
  | .arr xs => 1 + fuelL xs
  | .obj fs => 1 + fuelF fs

/-- Fuel sufficient to parse the printed elements of an array. -/
def fuelL : List JValue → Nat
  | [] => 1
  | x :: xs => 1 + max (fuelJ x) (fuelL xs)

/-- Fuel sufficient to parse the printed fields of an object. -/
def fuelF : List (String × JValue) → Nat
  | [] => 1
  | (k, v) :: fs => 1 + max (k.data.length + 2) (max (fuelJ v) (fuelF fs))

end

/-- The default deserializer's JSON.parse: parse a complete JSON document
with no trailing input. -/
def jsonParse (s : String) : Option JValue :=
  match parseJ s.data.length s.data with
  | some (v, []) => some v
  | _ => none

/-- The default serializer's JSON.stringify. -/
def jsonStringify (j : JValue) : String := ⟨printJ j⟩

/-! ## Message model (core types.ts, src/unnamed/part_012)

TypeScript optional fields (a field that may be undefined, which
JSON.stringify then omits) are modelled as Option. -/

/-- The structured error carried inside a response message. -/
structure ErrInfo where
  message : String
  code : String
deriving DecidableEq

/-- RequestMessage: type discriminant request, with a procedure name and
payload. -/
structure RequestMessage where
  id : String
  procedure : String
  data : Option JValue
  timestamp : Option Int

/-- ResponseMessage: type discriminant response, with either data or an
error. -/
structure ResponseMessage where
  id : String
  data : Option JValue
  error : Option ErrInfo
  timestamp : Option Int

/-- EventMessage: type discriminant event, with an event name and payload. -/
structure EventMessage where
  id : String
  event : String
  data : Option JValue
  timestamp : Option Int

/-- The Message union, discriminated by the type field. -/
inductive Message where
  | request (m : RequestMessage)
  | response (m : ResponseMessage)
  | event (m : EventMessage)

/-- The id field, present on every message kind. -/
def Message.id : Message → String
  | .request m => m.id
  | .response m => m.id
  | .event m => m.id

/-- Optional data field as JSON object fields (JSON.stringify omits a key
whose value is undefined). -/
def optField (k : String) : Option JValue → List (String × JValue)
  | none => []
  | some j => [(k, j)]

/-- Optional error field as JSON object fields. -/
def errField : Option ErrInfo → List (String × JValue)
  | none => []
  | some e => [("error", .obj [("message", .str e.message), ("code", .str e.code)])]

/-- Optional timestamp field as JSON object fields. -/
def tsField : Option Int → List (String × JValue)
  | none => []
  | some n => [("timestamp", .num n)]

/-- The JSON object a message denotes, with keys in the insertion order the
client object literals use (id, type, then the kind-specific fields, then
the optional timestamp). -/
def msgToJson : Message → JValue
  | .request m =>
    .obj ([("id", .str m.id), ("type", .str "request"), ("procedure", .str m.procedure)]
      ++ optField "data" m.data ++ tsField m.timestamp)
  | .response m =>
    .obj ([("id", .str m.id), ("type", .str "response")]
      ++ optField "data" m.data ++ errField m.error ++ tsField m.timestamp)
  | .event m =>
    .obj ([("id", .str m.id), ("type", .str "event"), ("event", .str m.event)]
      ++ optField "data" m.data ++ tsField m.timestamp)

/-- Field lookup in an association list, first match wins (JS object
property access on parsed JSON). -/
def lookupField (k : String) : List (String × JValue) → Option JValue
  | [] => none
  | (k₁, v) :: rest => if k₁ = k then some v else lookupField k rest

/-- Property access on a parsed JSON value. -/
def getField (j : JValue) (k : String) : Option JValue :=
  match j with
  | .obj fs => lookupField k fs
  | _ => none

/-- Read the optional structured error of a parsed response object. -/
def getErr (j : JValue) : Option ErrInfo :=
  match getField j "error" with
  | some e =>
    match getField e "message", getField e "code" with
    | some (.str m), some (.str c) => some ⟨m, c⟩
    | _, _ => none
  | none => none

/-- Read the optional timestamp of a parsed message object. -/
def getTs (j : JValue) : Option Int :=
  match getField j "timestamp" with
  | some (.num n) => some n
  | _ => none

/-- The unchecked cast of a parsed JSON value to Message that both clients
perform before dispatching on its type field: the handlers read the fields
id, procedure, event, data and error.  A value whose type field is not one
of the three kinds falls through every branch of the dispatcher and is
ignored. -/
def msgOfJson (j : JValue) : Option Message :=
  match getField j "type" with
  | some (.str t) =>
    if t = "request" then
      match getField j "id", getField j "procedure" with
      | some (.str id), some (.str proc) =>
        some (.request ⟨id, proc, getField j "data", getTs j⟩)
      | _, _ => none
    else if t = "response" then
      match getField j "id" with
      | some (.str id) => some (.response ⟨id, getField j "data", getErr j, getTs j⟩)
      | _ => none
    else if t = "event" then
      match getField j "id", getField j "event" with
      | some (.str id), some (.str ev) => some (.event ⟨id, ev, getField j "data", getTs j⟩)
      | _, _ => none
    else none
  | _ => none

/-- The kind discriminant string a message carries in its type field. -/
def kindStr : Message → String
  | .request _ => "request"
  | .response _ => "response"
  | .event _ => "event"

/-- The payload a message carries in its data field. -/
def payloadOf : Message → Option JValue
  | .request m => m.data
  | .response m => m.data
  | .event m => m.data

/-- defaultSerializer (core transport.ts): JSON.stringify of the message
object.  It does not throw on message values (they are acyclic). -/
def defaultSerializerM (m : Message) : Except String String :=
  .ok (jsonStringify (msgToJson m))

/-- defaultDeserializer (core transport.ts): JSON.parse, throwing a
SyntaxError on malformed input. -/
def defaultDeserializerM (raw : String) : Except String JValue :=
  match jsonParse raw with
  | some j => .ok j
  | none => .error "SyntaxError: Unexpected token in JSON"

/-! ## Errors (core errors.ts, src/packages/core/src/errors.ts) -/

/-- A JavaScript Error value as observed by the clients: its name, message,
and the extra fields the webview-rpc error classes add (code on
WebViewRPCError, timeout on WebViewRPCTimeoutError). -/
structure RPCError where
  name : String
  message : String
  code : Option String
  timeout : Option Nat
deriving DecidableEq

/-- Constructor of WebViewRPCError (errors.ts line 20): carries a message
and a code. -/
def webViewRPCError (m c : String) : RPCError :=
  ⟨"WebViewRPCError", m, some c, none⟩

/-- Constructor of WebViewRPCTimeoutError (errors.ts line 34): the code is
always TIMEOUT and the configured duration is kept in the timeout field. -/
def webViewRPCTimeoutError (m : String) (t : Nat) : RPCError :=
  ⟨"WebViewRPCTimeoutError", m, some "TIMEOUT", some t⟩

/-- A plain JavaScript Error with a message, as produced by a throwing
handler, serializer or deserializer. -/
def jsError (m : String) : RPCError :=
  ⟨"Error", m, none, none⟩

/-! ## Client state and effects

Both clients are closures over mutable maps.  Each modelled operation takes
the state and returns the new state together with the list of observable
effects it performs, in program order. -/

/-- One entry of the pending-requests map: the stored resolve/reject
callbacks settle the promise identified by the entry's key, so the model
keeps only the timer handle and emits settlement effects keyed by id. -/
structure PendingEntry where
  timeoutId : Nat
deriving DecidableEq

/-- A registered handler or event listener.  Distinct registered function
objects are distinguished by hid (JS Set and Map store them by reference
identity); run is the function body, which either returns a value or
throws an Error with a message. -/
structure Handler where
  hid : Nat
  run : Option JValue → Except String (Option JValue)

/-- Observable effects of one synchronous step of a client. -/
inductive Effect where
  | invoke (hid : Nat) (data : Option JValue)
  | errorSink (e : RPCError)
  | resolve (id : String) (v : Option JValue)
  | reject (id : String) (e : RPCError)
  | rejectCall (e : RPCError)
  | clearTimer (t : Nat)
  | postRaw (raw : String)
  | crash (reason : String)

/-- Handler ids invoked by a step, in order. -/
def invokedIds (effs : List Effect) : List Nat :=
  effs.filterMap fun e =>
    match e with
    | .invoke h _ => some h
    | _ => none

/-- Ids of pending requests rejected by a step, in order. -/
def rejectedIds (effs : List Effect) : List String :=
  effs.filterMap fun e =>
    match e with
    | .reject i _ => some i
    | _ => none

/-- Errors forwarded to the configured error sink by a step, in order. -/
def sunkErrors (effs : List Effect) : List RPCError :=
  effs.filterMap fun e =>
    match e with
    | .errorSink er => some er
    | _ => none

/-! ## Map helpers

JavaScript Map over string keys: lookup, set (replace or append) and
delete, on an association list whose order is insertion order. -/

/-- Map.get. -/
def mapLookup (k : String) : List (String × α) → Option α
  | [] => none
  | (k₁, v) :: rest => if k₁ = k then some v else mapLookup k rest

/-- Map.set: replaces the value under an existing key, else appends. -/
def mapSet (k : String) (v : α) : List (String × α) → List (String × α)
  | [] => [(k, v)]
  | (k₁, v₁) :: rest => if k₁ = k then (k, v) :: rest else (k₁, v₁) :: mapSet k v rest

/-- Map.delete: removes the key. -/
def mapDelete (k : String) (m : List (String × α)) : List (String × α) :=
  m.filter fun p => p.1 ≠ k

/-- Set.add on a listener set ordered by insertion: adding an
already-present function object is a no-op. -/
def addHandler (hs : List Handler) (h : Handler) : List Handler :=
  if hs.any fun h₁ => h₁.hid = h.hid then hs else hs ++ [h]

/-- Set.delete on a listener set: removes the function object. -/
def removeHandler (hs : List Handler) (hid : Nat) : List Handler :=
  hs.filter fun h₁ => h₁.hid ≠ hid

/-- The shared body of both clients' handleEvent loop: invoke each listener
of the set in insertion order, catching a throw, forwarding it to the error
sink and continuing with the remaining listeners (web client.ts lines
168-174, native client lines 215-221). -/
def runHandlers (d : Option JValue) : List Handler → List Effect
  | [] => []
  | h :: rest =>
    .invoke h.hid d ::
      (match h.run d with
       | .ok _ => []
       | .error e => [.errorSink (jsError e)]) ++ runHandlers d rest

/-! ## Web client (src/packages/web/src/client.ts) -/

/-- Configuration of the web client: the pluggable serializer/deserializer
(a throw is modelled as the error branch), the request timeout, and the
isWebView environment detection computed at creation. -/
structure WebConfig where
  serialize : Message → Except String String
  deserialize : String → Except String JValue
  timeout : Nat
  isWebView : Bool

/-- Mutable state of one web client instance: the pending-requests map, the
event handler sets, the single procedure handler per name, and whether the
window message listener is still attached. -/
structure WebState where
  pending : List (String × PendingEntry)
  eventHandlers : List (String × List Handler)
  procedureHandlers : List (String × Handler)
  listenerAttached : Bool

/-- postToNative (web client.ts lines 105-117): outside a WebView the
message is silently dropped; otherwise serialize and post, catching a
serializer throw and forwarding it to the error sink only — the pending
map is not touched on failure. -/
def postToNativeW (cfg : WebConfig) (s : WebState) (msg : Message) : WebState × List Effect :=
  if cfg.isWebView = false then (s, [])
  else
    match cfg.serialize msg with
    | .ok raw => (s, [.postRaw raw])
    | .error e => (s, [.errorSink (jsError e)])

/-- handleResponse (web client.ts lines 141-157): unknown id is a silent
no-op; otherwise clear the timer, delete the entry, and reject with a
WebViewRPCError built from the error field if present, else resolve with
the data field. -/
def handleResponseW (s : WebState) (m : ResponseMessage) : WebState × List Effect :=
  match mapLookup m.id s.pending with
  | none => (s, [])
  | some p =>
    let s₁ : WebState := { s with pending := mapDelete m.id s.pending }
    match m.error with
    | some e => (s₁, [.clearTimer p.timeoutId, .reject m.id (webViewRPCError e.message e.code)])
    | none => (s₁, [.clearTimer p.timeoutId, .resolve m.id m.data])

/-- handleEvent (web client.ts lines 162-175): invoke every registered
listener for the event in registration order; a throwing listener is
reported to the error sink and does not stop the loop. -/
def handleEventW (s : WebState) (m : EventMessage) : WebState × List Effect :=
  match mapLookup m.event s.eventHandlers with
  | none => (s, [])
  | some hs => if hs.isEmpty then (s, []) else (s, runHandlers m.data hs)

/-- handleRequest (web client.ts lines 180-218): no registered handler
sends back a NO_HANDLER error response; otherwise the single handler runs,
a success sends its result back, and a throw is forwarded to the error sink
and sent back as a HANDLER_ERROR response. -/
def handleRequestW (cfg : WebConfig) (s : WebState) (m : RequestMessage) :
    WebState × List Effect :=
  match mapLookup m.procedure s.procedureHandlers with
  | none =>
    postToNativeW cfg s (.response
      ⟨m.id, none, some ⟨"No handler registered for procedure: " ++ m.procedure, "NO_HANDLER"⟩,
        none⟩)
  | some h =>
    match h.run m.data with
    | .ok result =>
      let p := postToNativeW cfg s (.response ⟨m.id, result, none, none⟩)
      (p.1, .invoke h.hid m.data :: p.2)
    | .error e =>
      let p := postToNativeW cfg s (.response ⟨m.id, none, some ⟨e, "HANDLER_ERROR"⟩, none⟩)
      (p.1, .invoke h.hid m.data :: .errorSink (jsError e) :: p.2)

/-- handleMessage (web client.ts lines 122-136): deserialize, forwarding a
throw to the error sink, then dispatch on the type field; a value of no
known kind is ignored. -/
def handleMessageW (cfg : WebConfig) (s : WebState) (raw : String) : WebState × List Effect :=
  match cfg.deserialize raw with
  | .error e => (s, [.errorSink (jsError e)])
  | .ok j =>
    match msgOfJson j with
    | some (.response m) => handleResponseW s m
    | some (.event m) => handleEventW s m
    | some (.request m) => handleRequestW cfg s m
    | none => (s, [])

/-- The window message listener: attached at creation, removed by cleanup;
once removed, an incoming raw message reaches no client code at all. -/
def onWindowMessageW (cfg : WebConfig) (s : WebState) (raw : String) : WebState × List Effect :=
  if s.listenerAttached then handleMessageW cfg s raw else (s, [])

/-- call (web client.ts lines 223-256): outside a WebView the promise is
rejected immediately; otherwise a timer is armed, the pending entry stored
under a fresh correlation id, and the request posted.  The generated
correlation id and the timer handle are parameters (generateCorrelationId
and setTimeout are environment effects). -/
def callW (cfg : WebConfig) (s : WebState) (proc : String) (d : Option JValue)
    (id : String) (timerId : Nat) : WebState × List Effect :=
  if cfg.isWebView = false then
    (s, [.rejectCall (webViewRPCError "Not running in WebView" "NOT_IN_WEBVIEW")])
  else
    let s₁ : WebState := { s with pending := mapSet id ⟨timerId⟩ s.pending }
    postToNativeW cfg s₁ (.request ⟨id, proc, d, none⟩)

/-- The setTimeout callback armed by call (web client.ts lines 236-241):
delete the pending entry and reject the caller's promise with a
WebViewRPCTimeoutError embedding the configured duration. -/
def fireTimeoutW (cfg : WebConfig) (s : WebState) (id : String) : WebState × List Effect :=
  ({ s with pending := mapDelete id s.pending },
    [.reject id (webViewRPCTimeoutError
      ("Request timed out after " ++ toString cfg.timeout ++ "ms") cfg.timeout)])

/-- handleNativeEvent (web client.ts lines 261-282): add the listener to
the event's set, creating the set on first registration. -/
def registerEventHandlerW (s : WebState) (ev : String) (h : Handler) : WebState :=
  match mapLookup ev s.eventHandlers with
  | none => { s with eventHandlers := mapSet ev [h] s.eventHandlers }
  | some hs => { s with eventHandlers := mapSet ev (addHandler hs h) s.eventHandlers }

/-- handleWebProcedure (web client.ts lines 308-322): registering sets the
single handler for the procedure, replacing any previous one. -/
def registerWebProcedureW (s : WebState) (proc : String) (h : Handler) : WebState :=
  { s with procedureHandlers := mapSet proc h s.procedureHandlers }

/-- The unregister closure returned by handleWebProcedure (web client.ts
lines 319-321): it deletes whatever handler is stored under the captured
procedure name, unconditionally. -/
def unregisterWebProcedureW (s : WebState) (proc : String) : WebState :=
  { s with procedureHandlers := mapDelete proc s.procedureHandlers }

/-- cleanup (web client.ts lines 327-343): clear the timer of and reject
every pending request with a CLEANUP error, empty the pending map, clear
both handler maps, and remove the window message listener. -/
def cleanupW (s : WebState) : WebState × List Effect :=
  (⟨[], [], [], false⟩,
    s.pending.flatMap fun p =>
      [.clearTimer p.2.timeoutId, .reject p.1 (webViewRPCError "Client cleanup" "CLEANUP")])

/-! ## Native client (src/unnamed/part_018, the native client.ts) -/

/-- Configuration of the native client. -/
structure NativeConfig where
  serialize : Message → Except String String
  deserialize : String → Except String JValue
  timeout : Nat

/-- Mutable state of one native client instance: the pending-requests map,
the single handlers map used for both procedures and events, and whether
webViewRef.current is non-null. -/
structure NativeState where
  pending : List (String × PendingEntry)
  nativeHandlers : List (String × List Handler)
  webViewAvailable : Bool

/-- postMessage (native client lines 80-112): with a null webView ref an
event is silently dropped and a request settles its own pending entry with
a WEBVIEW_NULL error (the non-null assertion on the pending lookup throws
if the entry is absent); otherwise serialize and post, and on a serializer
throw forward it to the error sink and, if the message was a request,
settle its pending entry with that error. -/
def postMessageN (cfg : NativeConfig) (s : NativeState) (msg : Message) :
    NativeState × List Effect :=
  if s.webViewAvailable = false then
    match msg with
    | .event _ => (s, [])
    | _ =>
      match mapLookup msg.id s.pending with
      | some p =>
        ({ s with pending := mapDelete msg.id s.pending },
          [.clearTimer p.timeoutId, .reject msg.id (webViewRPCError "WebView ref is null" "WEBVIEW_NULL")])
      | none => (s, [.crash "TypeError: cannot read properties of undefined"])
  else
    match cfg.serialize msg with
    | .ok raw => (s, [.postRaw raw])
    | .error e =>
      match msg with
      | .request _ =>
        match mapLookup msg.id s.pending with
        | some p =>
          ({ s with pending := mapDelete msg.id s.pending },
            [.errorSink (jsError e), .clearTimer p.timeoutId, .reject msg.id (jsError e)])
        | none => (s, [.errorSink (jsError e), .crash "TypeError: cannot read properties of undefined"])
      | _ => (s, [.errorSink (jsError e)])

/-- handleResponse (native client lines 136-152): same shape as the web
side — unknown id is ignored, otherwise the entry is consumed and the
promise settled from the error or data field. -/
def handleResponseN (s : NativeState) (m : ResponseMessage) : NativeState × List Effect :=
  match mapLookup m.id s.pending with
  | none => (s, [])
  | some p =>
    let s₁ : NativeState := { s with pending := mapDelete m.id s.pending }
    match m.error with
    | some e => (s₁, [.clearTimer p.timeoutId, .reject m.id (webViewRPCError e.message e.code)])
    | none => (s₁, [.clearTimer p.timeoutId, .resolve m.id m.data])

/-- handleEvent (native client lines 207-222). -/
def handleEventN (s : NativeState) (m : EventMessage) : NativeState × List Effect :=
  match mapLookup m.event s.nativeHandlers with
  | none => (s, [])
  | some hs => if hs.isEmpty then (s, []) else (s, runHandlers m.data hs)

/-- handleRequest (native client lines 157-202): with no registered
handlers a NO_HANDLER response is sent back; otherwise only the first
handler of the set runs (Array.from(handlers)[0]); a success sends its
result back, a throw sends a HANDLER_ERROR response back and is then
forwarded to the error sink.  The timestamp the responses carry is
Date.now, passed as the now parameter. -/
def handleRequestN (cfg : NativeConfig) (s : NativeState) (m : RequestMessage) (now : Int) :
    NativeState × List Effect :=
  match mapLookup m.procedure s.nativeHandlers with
  | none =>
    postMessageN cfg s (.response
      ⟨m.id, none, some ⟨"No handler registered for procedure: " ++ m.procedure, "NO_HANDLER"⟩,
        some now⟩)
  | some [] =>
    postMessageN cfg s (.response
      ⟨m.id, none, some ⟨"No handler registered for procedure: " ++ m.procedure, "NO_HANDLER"⟩,
        some now⟩)
  | some (h :: _) =>
    match h.run m.data with
    | .ok result =>
      let p := postMessageN cfg s (.response ⟨m.id, result, none, some now⟩)
      (p.1, .invoke h.hid m.data :: p.2)
    | .error e =>
      let p := postMessageN cfg s (.response ⟨m.id, none, some ⟨e, "HANDLER_ERROR"⟩, some now⟩)
      (p.1, .invoke h.hid m.data :: p.2 ++ [.errorSink (jsError e)])

/-- handleMessage (native client lines 117-131). -/
def handleMessageN (cfg : NativeConfig) (s : NativeState) (raw : String) (now : Int) :
    NativeState × List Effect :=
  match cfg.deserialize raw with
  | .error e => (s, [.errorSink (jsError e)])
  | .ok j =>
    match msgOfJson j with
    | some (.response m) => handleResponseN s m
    | some (.request m) => handleRequestN cfg s m now
    | some (.event m) => handleEventN s m
    | none => (s, [])

/-- callWeb (native client lines 227-256): arm the timer, store the pending
entry under a fresh correlation id, then post the request (postMessage may
itself settle the entry on failure). -/
def callWebN (cfg : NativeConfig) (s : NativeState) (proc : String) (d : Option JValue)
    (id : String) (timerId : Nat) (now : Int) : NativeState × List Effect :=
  let s₁ : NativeState := { s with pending := mapSet id ⟨timerId⟩ s.pending }
  postMessageN cfg s₁ (.request ⟨id, proc, d, some now⟩)

/-- The setTimeout callback armed by callWeb (native client lines
243-246). -/
def fireTimeoutN (cfg : NativeConfig) (s : NativeState) (id : String) :
    NativeState × List Effect :=
  ({ s with pending := mapDelete id s.pending },
    [.reject id (webViewRPCTimeoutError
      ("Request timed out after " ++ toString cfg.timeout ++ "ms") cfg.timeout)])

/-- registerNativeHandler (native client lines 325-348, identical to
registerWebHandler at lines 297-320): add the handler to the name's set,
creating the set on first registration — re-registration accumulates, it
does not replace. -/
def registerNativeHandlerN (s : NativeState) (name : String) (h : Handler) : NativeState :=
  match mapLookup name s.nativeHandlers with
  | none => { s with nativeHandlers := mapSet name [h] s.nativeHandlers }
  | some hs => { s with nativeHandlers := mapSet name (addHandler hs h) s.nativeHandlers }

/-- The unsubscribe closure returned by registerNativeHandler (native
client lines 342-348): remove exactly the captured handler from the set and
drop the set once empty. -/
def unregisterNativeHandlerN (s : NativeState) (name : String) (hid : Nat) : NativeState :=
  match mapLookup name s.nativeHandlers with
  | none => s
  | some hs =>
    let hs₁ := removeHandler hs hid
    if hs₁.isEmpty then { s with nativeHandlers := mapDelete name s.nativeHandlers }
    else { s with nativeHandlers := mapSet name hs₁ s.nativeHandlers }

/-- cleanup (native client lines 353-363): clear the timer of and reject
every pending request with a plain Error, empty the pending map and the
handlers map. -/
def cleanupN (s : NativeState) : NativeState × List Effect :=
  ({ s with pending := [], nativeHandlers := [] },
    s.pending.flatMap fun p =>
      [.clearTimer p.2.timeoutId, .reject p.1 (jsError "Client cleanup called")])

/-- The input that follows a printed JSON value never begins with a digit
(it is empty or begins with a separator or closing bracket). -/
def noDigitHead (cs : List Char) : Prop :=
  ∀ c, cs.head? = some c → c.isDigit = false

/-- The error a handler invocation throws, if any, as it reaches the error
sink. -/
def thrownErr (d : Option JValue) (h : Handler) : Option RPCError :=
  match h.run d with
  | .ok _ => none
  | .error e => some (jsError e)

/-- Ids and errors of the reject effects of a step, in order. -/
def rejections (effs : List Effect) : List (String × RPCError) :=
  effs.filterMap fun e =>
    match e with
    | .reject i er => some (i, er)
    | _ => none

/-- Timer handles cleared by a step, in order. -/
def clearedTimers (effs : List Effect) : List Nat :=
  effs.filterMap fun e =>
    match e with
    | .clearTimer t => some t
    | _ => none

/-! ## Helper lemmas on the map model -/

theorem mapLookup_mapSet_self (k : String) (v : α) (l : List (String × α)) :
    mapLookup k (mapSet k v l) = some v := by
  induction l with
  | nil => simp [mapSet, mapLookup]
  | cons p rest ih =>
    by_cases h : p.1 = k
    · simp [mapSet, h, mapLookup]
    · simpa [mapSet, h, mapLookup] using ih

theorem mapLookup_mapDelete_self (k : String) (l : List (String × α)) :
    mapLookup k (mapDelete k l) = none := by
  induction l with
  | nil => simp [mapDelete, mapLookup]
  | cons p rest ih =>
    by_cases h : p.1 = k
    · simp [mapDelete, h, mapLookup] at ih ⊢
      simpa [mapDelete] using ih
    · simpa [mapDelete, h, mapLookup] using ih

/-! ## JSON round-trip lemmas -/

theorem digitChar_isDigit (d : Nat) (h : d < 10) : (digitChar d).isDigit = true := by
  interval_cases d <;> decide

theorem digitChar_toNat (d : Nat) (h : d < 10) : (digitChar d).toNat = 48 + d := by
  interval_cases d <;> decide

theorem natChars_ne_nil (n : Nat) : natChars n ≠ [] := by
  rw [natChars]
  split
  · simp
  · simp

theorem natChars_all_digits (n : Nat) : ∀ c ∈ natChars n, c.isDigit = true := by
  induction n using Nat.strong_induction_on with
  | _ n ih =>
    rw [natChars]
    split
    · next h =>
      intro c hc
      simp at hc
      subst hc
      exact digitChar_isDigit n h
    · next h =>
      intro c hc
      simp at hc
      rcases hc with hc | hc
      · exact ih (n / 10) (Nat.div_lt_self (by omega) (by omega)) c hc
      · subst hc
        exact digitChar_isDigit (n % 10) (Nat.mod_lt n (by omega))

theorem digitsToNat_natChars (n : Nat) : digitsToNat (natChars n) = n := by
  induction n using Nat.strong_induction_on with
  | _ n ih =>
    rw [natChars]
    split
    · next h =>
      simp [digitsToNat, digitChar_toNat n h]
    · next h =>
      have hrec := ih (n / 10) (Nat.div_lt_self (by omega) (by omega))
      simp only [digitsToNat, List.foldl_append, List.foldl_cons, List.foldl_nil]
      simp only [digitsToNat] at hrec
      rw [hrec, digitChar_toNat (n % 10) (Nat.mod_lt n (by omega))]
      omega

theorem takeWhile_all_append (p : Char → Bool) (xs ys : List Char)
    (hx : ∀ c ∈ xs, p c = true) (hy : ∀ c, ys.head? = some c → p c = false) :
    (xs ++ ys).takeWhile p = xs ∧ (xs ++ ys).dropWhile p = ys := by
  induction xs with
  | nil =>
    cases ys with
    | nil => simp
    | cons y t =>
      have := hy y rfl
      simp [List.takeWhile_cons, List.dropWhile_cons, this]
  | cons x xs ih =>
    have hx0 : p x = true := hx x (by simp)
    have ih2 := ih (fun c hc => hx c (by simp [hc]))
    simp [List.takeWhile_cons, List.dropWhile_cons, hx0, ih2.1, ih2.2]

theorem escapeChar_length_pos (c : Char) : 1 ≤ (escapeChar c).length := by
  unfold escapeChar
  split_ifs <;> simp

theorem flatMap_escape_length (cs : List Char) :
    cs.length ≤ (cs.flatMap escapeChar).length := by
  induction cs with
  | nil => simp
  | cons c t ih =>
    have := escapeChar_length_pos c
    simp only [List.flatMap_cons, List.length_append, List.length_cons]
    omega

theorem hexVal_hexDigitChar (n : Nat) (h : n < 16) : hexVal (hexDigitChar n) = some n := by
  interval_cases n <;> decide

theorem sb_quote (f : Nat) (rest : List Char) :
    parseStrBody (f + 1) ('"' :: rest) = some ([], rest) := rfl

theorem sb_esc_quote (f : Nat) (rest : List Char) :
    parseStrBody (f + 1) ('\\' :: '"' :: rest) = mapCons '"' (parseStrBody f rest) := rfl

theorem sb_esc_backslash (f : Nat) (rest : List Char) :
    parseStrBody (f + 1) ('\\' :: '\\' :: rest) = mapCons '\\' (parseStrBody f rest) := rfl

theorem sb_esc_newline (f : Nat) (rest : List Char) :
    parseStrBody (f + 1) ('\\' :: 'n' :: rest) = mapCons '\n' (parseStrBody f rest) := rfl

theorem sb_esc_tab (f : Nat) (rest : List Char) :
    parseStrBody (f + 1) ('\\' :: 't' :: rest) = mapCons '\t' (parseStrBody f rest) := rfl

theorem sb_esc_cr (f : Nat) (rest : List Char) :
    parseStrBody (f + 1) ('\\' :: 'r' :: rest) = mapCons '\r' (parseStrBody f rest) := rfl

theorem sb_esc_backspace (f : Nat) (rest : List Char) :
    parseStrBody (f + 1) ('\\' :: 'b' :: rest) = mapCons '\x08' (parseStrBody f rest) := rfl

theorem sb_esc_formfeed (f : Nat) (rest : List Char) :
    parseStrBody (f + 1) ('\\' :: 'f' :: rest) = mapCons '\x0c' (parseStrBody f rest) := rfl

theorem sb_esc_u (f : Nat) (h1 h2 h3 h4 : Char) (rest : List Char) :
    parseStrBody (f + 1) ('\\' :: 'u' :: h1 :: h2 :: h3 :: h4 :: rest) =
      match hexVal h1, hexVal h2, hexVal h3, hexVal h4 with
      | some a, some b, some c2, some d =>
        mapCons (Char.ofNat (((a * 16 + b) * 16 + c2) * 16 + d)) (parseStrBody f rest)
      | _, _, _, _ => none := rfl

theorem sb_plain (f : Nat) (c : Char) (rest : List Char)
    (hq : ¬c = '"') (hb : ¬c = '\\') :
    parseStrBody (f + 1) (c :: rest) = mapCons c (parseStrBody f rest) := by
  simp only [parseStrBody]
  rw [if_neg hq, if_neg hb]

/-- Round trip of the string escaper and the string-body parser: parsing
the escaped form of any character sequence, followed by the closing quote,
yields it back. -/
theorem parseStrBody_escape (cs : List Char) (rest : List Char) :
    ∀ fuel, cs.length < fuel →
      parseStrBody fuel (cs.flatMap escapeChar ++ '"' :: rest) = some (cs, rest) := by
  induction cs with
  | nil =>
    intro fuel hf
    cases fuel with
    | zero => omega
    | succ f => rfl
  | cons c cs ih =>
    intro fuel hf
    cases fuel with
    | zero => omega
    | succ f =>
      have hlen : cs.length < f := by
        simp only [List.length_cons] at hf
        omega
      by_cases h1 : c = '"'
      · subst h1
        have hflat : (('"' :: cs).flatMap escapeChar ++ '"' :: rest)
            = '\\' :: '"' :: (cs.flatMap escapeChar ++ '"' :: rest) := by
          simp [escapeChar]
        rw [hflat, sb_esc_quote, ih f hlen]
        rfl
      · by_cases h2 : c = '\\'
        · subst h2
          have hflat : (('\\' :: cs).flatMap escapeChar ++ '"' :: rest)
              = '\\' :: '\\' :: (cs.flatMap escapeChar ++ '"' :: rest) := by
            simp [escapeChar]
          rw [hflat, sb_esc_backslash, ih f hlen]
          rfl
        · by_cases h3 : c = '\n'
          · subst h3
            have hflat : (('\n' :: cs).flatMap escapeChar ++ '"' :: rest)
                = '\\' :: 'n' :: (cs.flatMap escapeChar ++ '"' :: rest) := by
              simp [escapeChar]
            rw [hflat, sb_esc_newline, ih f hlen]
            rfl
          · by_cases h4 : c = '\t'
            · subst h4
              have hflat : (('\t' :: cs).flatMap escapeChar ++ '"' :: rest)
                  = '\\' :: 't' :: (cs.flatMap escapeChar ++ '"' :: rest) := by
                simp [escapeChar]
              rw [hflat, sb_esc_tab, ih f hlen]
              rfl
            · by_cases h5 : c = '\r'
              · subst h5
                have hflat : (('\r' :: cs).flatMap escapeChar ++ '"' :: rest)
                    = '\\' :: 'r' :: (cs.flatMap escapeChar ++ '"' :: rest) := by
                  simp [escapeChar]
                rw [hflat, sb_esc_cr, ih f hlen]
                rfl
              · by_cases h6 : c = '\x08'
                · subst h6
                  have hflat : (('\x08' :: cs).flatMap escapeChar ++ '"' :: rest)
                      = '\\' :: 'b' :: (cs.flatMap escapeChar ++ '"' :: rest) := by
                    simp [escapeChar]
                  rw [hflat, sb_esc_backspace, ih f hlen]
                  rfl
                · by_cases h7 : c = '\x0c'
                  · subst h7
                    have hflat : (('\x0c' :: cs).flatMap escapeChar ++ '"' :: rest)
                        = '\\' :: 'f' :: (cs.flatMap escapeChar ++ '"' :: rest) := by
                      simp [escapeChar]
                    rw [hflat, sb_esc_formfeed, ih f hlen]
                    rfl
                  · by_cases h8 : c.toNat < 32
                    · have hesc : escapeChar c = ['\\', 'u', '0', '0',
                          hexDigitChar (c.toNat / 16), hexDigitChar (c.toNat % 16)] := by
                        unfold escapeChar
                        rw [if_neg h1, if_neg h2, if_neg h3, if_neg h4, if_neg h5,
                          if_neg h6, if_neg h7, if_pos h8]
                      have hflat : ((c :: cs).flatMap escapeChar ++ '"' :: rest)
                          = '\\' :: 'u' :: '0' :: '0' :: hexDigitChar (c.toNat / 16)
                              :: hexDigitChar (c.toNat % 16)
                              :: (cs.flatMap escapeChar ++ '"' :: rest) := by
                        simp [hesc]
                      rw [hflat, sb_esc_u,
                        hexVal_hexDigitChar (c.toNat / 16) (by omega),
                        hexVal_hexDigitChar (c.toNat % 16) (by omega)]
                      have harith : ((0 * 16 + 0) * 16 + c.toNat / 16) * 16 + c.toNat % 16
                          = c.toNat := by omega
                      show mapCons (Char.ofNat (((0 * 16 + 0) * 16 + c.toNat / 16) * 16
                          + c.toNat % 16)) (parseStrBody f (cs.flatMap escapeChar ++ '"' :: rest))
                          = some (c :: cs, rest)
                      rw [harith, Char.ofNat_toNat, ih f hlen]
                      rfl
                    · have hesc : escapeChar c = [c] := by
                        unfold escapeChar
                        rw [if_neg h1, if_neg h2, if_neg h3, if_neg h4, if_neg h5,
                          if_neg h6, if_neg h7, if_neg h8]
                      have hflat : ((c :: cs).flatMap escapeChar ++ '"' :: rest)
                          = c :: (cs.flatMap escapeChar ++ '"' :: rest) := by
                        simp [hesc]
                      rw [hflat, sb_plain f c _ h1 h2, ih f hlen]
                      rfl

theorem noDigitHead_nil : noDigitHead [] := by
  intro c h
  simp at h

theorem noDigitHead_cons (c : Char) (r : List Char) (h : c.isDigit = false) :
    noDigitHead (c :: r) := by
  intro d hd
  simp at hd
  subst hd
  exact h

theorem printJ_cons (v : JValue) :
    ∃ c t, printJ v = c :: t ∧ c ≠ ']' ∧ c ≠ '\x7d' ∧ c ≠ ',' := by
  cases v with
  | null => exact ⟨'n', _, rfl, by decide, by decide, by decide⟩
  | bool b =>
    cases b
    · exact ⟨'f', _, rfl, by decide, by decide, by decide⟩
    · exact ⟨'t', _, rfl, by decide, by decide, by decide⟩
  | num n =>
    by_cases hn : n < 0
    · refine ⟨'-', natChars n.natAbs, ?_, by decide, by decide, by decide⟩
      simp [printJ, intChars, hn]
    · obtain ⟨d, t, hd⟩ := List.exists_cons_of_ne_nil (natChars_ne_nil n.toNat)
      have hdig : d.isDigit = true := natChars_all_digits n.toNat d (by rw [hd]; simp)
      refine ⟨d, t, ?_, ?_, ?_, ?_⟩
      · simp [printJ, intChars, hn, hd]
      · intro h; rw [h] at hdig; exact absurd hdig (by decide)
      · intro h; rw [h] at hdig; exact absurd hdig (by decide)
      · intro h; rw [h] at hdig; exact absurd hdig (by decide)
  | str s => exact ⟨'"', _, rfl, by decide, by decide, by decide⟩
  | arr xs => exact ⟨'[', _, rfl, by decide, by decide, by decide⟩
  | obj fs => exact ⟨'\x7b', _, rfl, by decide, by decide, by decide⟩

theorem printJ_length_pos (v : JValue) : 1 ≤ (printJ v).length := by
  obtain ⟨c, t, h, _, _, _⟩ := printJ_cons v
  rw [h]
  simp

theorem printArr_eq_append (x : JValue) (xs : List JValue) :
    ∃ u, printArr (x :: xs) = printJ x ++ u := by
  cases xs with
  | nil => exact ⟨[], by simp [printArr]⟩
  | cons y ys => exact ⟨',' :: printArr (y :: ys), by simp [printArr]⟩

theorem fuelJ_pos (v : JValue) : 1 ≤ fuelJ v := by
  cases v <;> simp [fuelJ]

theorem fuelL_cons_pos (x : JValue) (xs : List JValue) : 1 ≤ fuelL (x :: xs) := by
  simp [fuelL]

theorem fuelF_cons_pos (kv : String × JValue) (fs : List (String × JValue)) :
    1 ≤ fuelF (kv :: fs) := by
  cases kv
  simp [fuelF]

mutual

theorem fuelJ_le_print : ∀ v : JValue, fuelJ v ≤ (printJ v).length
  | .null => by simp [fuelJ, printJ]
  | .bool b => by cases b <;> simp [fuelJ, printJ]
  | .num n => by
    simp only [fuelJ, printJ, intChars]
    split
    · simp only [List.length_cons]
      have := List.length_pos.mpr (natChars_ne_nil n.natAbs)
      omega
    · have := List.length_pos.mpr (natChars_ne_nil n.toNat)
      omega
  | .str s => by
    have := flatMap_escape_length s.data
    simp only [fuelJ, printJ, encStr, List.cons_append, List.length_cons, List.length_append,
      List.length_singleton]
    omega
  | .arr [] => by simp [fuelJ, fuelL, printJ, printArr]
  | .arr (x :: xs) => by
    have h := fuelL_le_print x xs
    simp only [fuelJ, printJ, List.cons_append, List.length_cons, List.length_append,
      List.length_singleton]
    omega
  | .obj [] => by simp [fuelJ, fuelF, printJ, printObj]
  | .obj (kv :: fs) => by
    have h := fuelF_le_print kv fs
    simp only [fuelJ, printJ, List.cons_append, List.length_cons, List.length_append,
      List.length_singleton]
    omega
termination_by v => sizeOf v

theorem fuelL_le_print : ∀ (x : JValue) (xs : List JValue),
    fuelL (x :: xs) ≤ (printArr (x :: xs)).length + 1
  | x, [] => by
    have h := fuelJ_le_print x
    have hp := printJ_length_pos x
    simp only [fuelL, fuelL, printArr]
    omega
  | x, y :: ys => by
    have h1 := fuelJ_le_print x
    have h2 := fuelL_le_print y ys
    have e1 : fuelL (x :: y :: ys) = 1 + max (fuelJ x) (fuelL (y :: ys)) := rfl
    have e2 : printArr (x :: y :: ys) = printJ x ++ ',' :: printArr (y :: ys) := rfl
    rw [e1, e2]
    simp only [List.length_append, List.length_cons]
    omega
termination_by x xs => sizeOf x + sizeOf xs

theorem fuelF_le_print : ∀ (kv : String × JValue) (fs : List (String × JValue)),
    fuelF (kv :: fs) ≤ (printObj (kv :: fs)).length + 1
  | (k, v), [] => by
    have h := fuelJ_le_print v
    have he := flatMap_escape_length k.data
    simp only [fuelF, printObj, encStr, List.cons_append, List.length_append,
      List.length_cons, List.length_singleton]
    omega
  | (k, v), kv₂ :: fs' => by
    have h := fuelJ_le_print v
    have hf := fuelF_le_print kv₂ fs'
    have he := flatMap_escape_length k.data
    have e1 : fuelF ((k, v) :: kv₂ :: fs')
        = 1 + max (k.data.length + 2) (max (fuelJ v) (fuelF (kv₂ :: fs'))) := rfl
    have e2 : printObj ((k, v) :: kv₂ :: fs')
        = encStr k ++ ':' :: printJ v ++ ',' :: printObj (kv₂ :: fs') := rfl
    rw [e1, e2]
    simp only [encStr, List.cons_append, List.length_append, List.length_cons,
      List.length_singleton]
    omega
termination_by kv fs => sizeOf kv + sizeOf fs

end

theorem pj_null (f : Nat) (r : List Char) :
    parseJ (f + 1) ('n' :: 'u' :: 'l' :: 'l' :: r) = some (.null, r) := rfl

theorem pj_true (f : Nat) (r : List Char) :
    parseJ (f + 1) ('t' :: 'r' :: 'u' :: 'e' :: r) = some (.bool true, r) := rfl

theorem pj_false (f : Nat) (r : List Char) :
    parseJ (f + 1) ('f' :: 'a' :: 'l' :: 's' :: 'e' :: r) = some (.bool false, r) := rfl

theorem pj_str (f : Nat) (rest : List Char) :
    parseJ (f + 1) ('"' :: rest) =
      match parseStrBody f rest with
      | some (content, r) => some (.str ⟨content⟩, r)
      | none => none := rfl

theorem pj_arr (f : Nat) (rest : List Char) :
    parseJ (f + 1) ('[' :: rest) =
      if rest.head? = some ']' then some (.arr [], rest.tail)
      else
        match parseElems f rest with
        | some (xs, r) => some (.arr xs, r)
        | none => none := rfl

theorem pj_obj (f : Nat) (rest : List Char) :
    parseJ (f + 1) ('\x7b' :: rest) =
      if rest.head? = some '\x7d' then some (.obj [], rest.tail)
      else
        match parseFields f rest with
        | some (fs, r) => some (.obj fs, r)
        | none => none := rfl

theorem pj_digit (f : Nat) (c : Char) (rest : List Char) (h : c.isDigit = true) :
    parseJ (f + 1) (c :: rest) =
      some (.num ((digitsToNat ((c :: rest).takeWhile Char.isDigit) : Int)),
        (c :: rest).dropWhile Char.isDigit) := by
  simp only [parseJ]
  rw [if_pos h]

theorem pj_neg (f : Nat) (rest : List Char) :
    parseJ (f + 1) ('-' :: rest) =
      match rest.takeWhile Char.isDigit, rest.dropWhile Char.isDigit with
      | [], _ => none
      | digs, rest₂ => some (.num (-(digitsToNat digs : Int)), rest₂) := rfl

theorem pe_step (f : Nat) (cs : List Char) :
    parseElems (f + 1) cs =
      match parseJ f cs with
      | none => none
      | some (v, rest) =>
        match rest with
        | ',' :: rest₁ =>
          (match parseElems f rest₁ with
           | some (xs, r) => some (v :: xs, r)
           | none => none)
        | ']' :: rest₁ => some ([v], rest₁)
        | _ => none := rfl

theorem pf_step (f : Nat) (rest : List Char) :
    parseFields (f + 1) ('"' :: rest) =
      match parseStrBody f rest with
      | none => none
      | some (k, rest₁) =>
        match rest₁ with
        | ':' :: rest₂ =>
          (match parseJ f rest₂ with
           | none => none
           | some (v, rest₃) =>
             match rest₃ with
             | ',' :: rest₄ =>
               (match parseFields f rest₄ with
                | some (fs, r) => some ((⟨k⟩, v) :: fs, r)
                | none => none)
             | '\x7d' :: rest₄ => some ([(⟨k⟩, v)], rest₄)
             | _ => none)
        | _ => none := rfl

theorem pj_num_nonneg (f m : Nat) (rest : List Char) (hrest : noDigitHead rest) :
    parseJ (f + 1) (natChars m ++ rest) = some (.num (m : Int), rest) := by
  obtain ⟨d, t, hd⟩ := List.exists_cons_of_ne_nil (natChars_ne_nil m)
  have hdig : d.isDigit = true := natChars_all_digits m d (by rw [hd]; simp)
  have hform : natChars m ++ rest = d :: (t ++ rest) := by rw [hd]; rfl
  have htake := takeWhile_all_append Char.isDigit (natChars m) rest (natChars_all_digits m)
    (fun c hc => hrest c hc)
  rw [hform, pj_digit f d (t ++ rest) hdig, ← hform, htake.1, htake.2, digitsToNat_natChars]

theorem pj_num_neg_chars (f m : Nat) (rest : List Char) (hrest : noDigitHead rest) :
    parseJ (f + 1) ('-' :: (natChars m ++ rest)) = some (.num (-(m : Int)), rest) := by
  rw [pj_neg]
  have htake := takeWhile_all_append Char.isDigit (natChars m) rest (natChars_all_digits m)
    (fun c hc => hrest c hc)
  rw [htake.1, htake.2]
  obtain ⟨d, t, hd⟩ := List.exists_cons_of_ne_nil (natChars_ne_nil m)
  rw [hd]
  show some (JValue.num (-(digitsToNat (d :: t) : Int)), rest) = some (JValue.num (-(m : Int)), rest)
  rw [← hd, digitsToNat_natChars]

theorem printObj_eq_append (k : String) (v : JValue) (fs : List (String × JValue)) :
    ∃ u, printObj ((k, v) :: fs) = encStr k ++ u := by
  cases fs with
  | nil => exact ⟨':' :: printJ v, by simp [printObj]⟩
  | cons kv₂ fs' =>
    exact ⟨':' :: (printJ v ++ ',' :: printObj (kv₂ :: fs')), by simp [printObj]⟩

/-- Parsing the printed form of a JSON value — with enough fuel, and
followed by input that does not begin with a digit — returns exactly that
value and the remaining input.  Stated jointly for values, array tails and
object tails, by induction on fuel. -/
theorem parse_print_aux : ∀ fuel : Nat,
    (∀ (v : JValue) (rest : List Char), fuelJ v ≤ fuel → noDigitHead rest →
      parseJ fuel (printJ v ++ rest) = some (v, rest)) ∧
    (∀ (x : JValue) (xs : List JValue) (rest : List Char), fuelL (x :: xs) ≤ fuel →
      parseElems fuel (printArr (x :: xs) ++ ']' :: rest) = some (x :: xs, rest)) ∧
    (∀ (k : String) (v : JValue) (fs : List (String × JValue)) (rest : List Char),
      fuelF ((k, v) :: fs) ≤ fuel →
      parseFields fuel (printObj ((k, v) :: fs) ++ '\x7d' :: rest)
        = some ((k, v) :: fs, rest)) := by
  intro fuel
  induction fuel with
  | zero =>
    refine ⟨?_, ?_, ?_⟩
    · intro v rest hfv _
      exact absurd hfv (by have := fuelJ_pos v; omega)
    · intro x xs rest hfl
      exact absurd hfl (by have := fuelL_cons_pos x xs; omega)
    · intro k v fs rest hff
      exact absurd hff (by have := fuelF_cons_pos (k, v) fs; omega)
  | succ f ih =>
    obtain ⟨ihP, ihQ, ihR⟩ := ih
    refine ⟨?_, ?_, ?_⟩
    · intro v rest hfv hrest
      cases v with
      | null => rw [show printJ JValue.null ++ rest = 'n' :: 'u' :: 'l' :: 'l' :: rest from rfl, pj_null]
      | bool b =>
        cases b with
        | false =>
          rw [show printJ (.bool false) ++ rest = 'f' :: 'a' :: 'l' :: 's' :: 'e' :: rest from rfl,
            pj_false]
        | true =>
          rw [show printJ (.bool true) ++ rest = 't' :: 'r' :: 'u' :: 'e' :: rest from rfl,
            pj_true]
      | num n =>
        by_cases hn : n < 0
        · have hpr : printJ (.num n) ++ rest = '-' :: (natChars n.natAbs ++ rest) := by
            simp [printJ, intChars, hn]
          rw [hpr, pj_num_neg_chars f n.natAbs rest hrest]
          have he : -((n.natAbs : Int)) = n := by omega
          rw [he]
        · have hpr : printJ (.num n) ++ rest = natChars n.toNat ++ rest := by
            simp [printJ, intChars, hn]
          rw [hpr, pj_num_nonneg f n.toNat rest hrest]
          have he : ((n.toNat : Int)) = n := by omega
          rw [he]
      | str s =>
        have hpr : printJ (.str s) ++ rest
            = '"' :: (s.data.flatMap escapeChar ++ '"' :: rest) := by
          simp [printJ, encStr]
        have hlen : s.data.length < f := by
          have he : fuelJ (.str s) = s.data.length + 2 := rfl
          omega
        rw [hpr, pj_str, parseStrBody_escape s.data rest f hlen]
      | arr xs =>
        cases xs with
        | nil =>
          rw [show printJ (.arr []) ++ rest = '[' :: ']' :: rest from rfl]
          rfl
        | cons x xs =>
          have hpr : printJ (.arr (x :: xs)) ++ rest
              = '[' :: (printArr (x :: xs) ++ ']' :: rest) := by
            simp [printJ]
          have hhead : ¬(printArr (x :: xs) ++ ']' :: rest).head? = some ']' := by
            obtain ⟨u, hu⟩ := printArr_eq_append x xs
            obtain ⟨c0, t0, hct, hne1, _, _⟩ := printJ_cons x
            rw [hu, hct]
            simp [hne1]
          have hfl : fuelL (x :: xs) ≤ f := by
            have he : fuelJ (.arr (x :: xs)) = 1 + fuelL (x :: xs) := rfl
            omega
          rw [hpr, pj_arr, if_neg hhead, ihQ x xs rest hfl]
      | obj fs =>
        cases fs with
        | nil =>
          rw [show printJ (.obj []) ++ rest = '\x7b' :: '\x7d' :: rest from rfl]
          rfl
        | cons kv fs =>
          obtain ⟨k, v⟩ := kv
          have hpr : printJ (.obj ((k, v) :: fs)) ++ rest
              = '\x7b' :: (printObj ((k, v) :: fs) ++ '\x7d' :: rest) := by
            simp [printJ]
          have hhead : ¬(printObj ((k, v) :: fs) ++ '\x7d' :: rest).head? = some '\x7d' := by
            obtain ⟨u, hu⟩ := printObj_eq_append k v fs
            rw [hu]
            simp [encStr]
          have hff : fuelF ((k, v) :: fs) ≤ f := by
            have he : fuelJ (.obj ((k, v) :: fs)) = 1 + fuelF ((k, v) :: fs) := rfl
            omega
          rw [hpr, pj_obj, if_neg hhead, ihR k v fs rest hff]
    · intro x xs rest hfl
      cases xs with
      | nil =>
        have hfx : fuelJ x ≤ f := by
          have e1 : fuelL [x] = 1 + max (fuelJ x) (fuelL []) := rfl
          have e2 : fuelL ([] : List JValue) = 1 := rfl
          omega
        have hpr : printArr [x] ++ ']' :: rest = printJ x ++ ']' :: rest := by simp [printArr]
        rw [hpr, pe_step, ihP x (']' :: rest) hfx (noDigitHead_cons ']' rest (by decide))]
        rfl
      | cons y ys =>
        have e1 : fuelL (x :: y :: ys) = 1 + max (fuelJ x) (fuelL (y :: ys)) := rfl
        have hfx : fuelJ x ≤ f := by omega
        have hfyys : fuelL (y :: ys) ≤ f := by omega
        have hpr : printArr (x :: y :: ys) ++ ']' :: rest
            = printJ x ++ ',' :: (printArr (y :: ys) ++ ']' :: rest) := by
          simp [printArr]
        rw [hpr, pe_step, ihP x _ hfx (noDigitHead_cons ',' _ (by decide))]
        show (match parseElems f (printArr (y :: ys) ++ ']' :: rest) with
          | some (xs₁, r) => some (x :: xs₁, r)
          | none => none) = some (x :: y :: ys, rest)
        rw [ihQ y ys rest hfyys]
    · intro k v fs rest hff
      have e1 : fuelF ((k, v) :: fs)
          = 1 + max (k.data.length + 2) (max (fuelJ v) (fuelF fs)) := rfl
      have hklen : k.data.length < f := by omega
      have hfv : fuelJ v ≤ f := by omega
      cases fs with
      | nil =>
        have hpr : printObj [(k, v)] ++ '\x7d' :: rest
            = '"' :: (k.data.flatMap escapeChar
                ++ '"' :: (':' :: (printJ v ++ '\x7d' :: rest))) := by
          simp [printObj, encStr]
        rw [hpr, pf_step, parseStrBody_escape k.data _ f hklen]
        show (match parseJ f (printJ v ++ '\x7d' :: rest) with
          | none => none
          | some (v₁, rest₃) =>
            match rest₃ with
            | ',' :: rest₄ =>
              (match parseFields f rest₄ with
               | some (fs₁, r) => some ((⟨k.data⟩, v₁) :: fs₁, r)
               | none => none)
            | '\x7d' :: rest₄ => some ([(⟨k.data⟩, v₁)], rest₄)
            | _ => none) = some ([(k, v)], rest)
        rw [ihP v _ hfv (noDigitHead_cons '\x7d' rest (by decide))]
        rfl
      | cons kv₂ fs' =>
        obtain ⟨k₂, v₂⟩ := kv₂
        have hffs : fuelF ((k₂, v₂) :: fs') ≤ f := by omega
        have hpr : printObj ((k, v) :: (k₂, v₂) :: fs') ++ '\x7d' :: rest
            = '"' :: (k.data.flatMap escapeChar ++ '"' ::
                (':' :: (printJ v ++ ',' :: (printObj ((k₂, v₂) :: fs')
                  ++ '\x7d' :: rest)))) := by
          simp [printObj, encStr]
        rw [hpr, pf_step, parseStrBody_escape k.data _ f hklen]
        show (match parseJ f (printJ v
            ++ ',' :: (printObj ((k₂, v₂) :: fs') ++ '\x7d' :: rest)) with
          | none => none
          | some (v₁, rest₃) =>
            match rest₃ with
            | ',' :: rest₄ =>
              (match parseFields f rest₄ with
               | some (fs₁, r) => some ((⟨k.data⟩, v₁) :: fs₁, r)
               | none => none)
            | '\x7d' :: rest₄ => some ([(⟨k.data⟩, v₁)], rest₄)
            | _ => none) = some ((k, v) :: (k₂, v₂) :: fs', rest)
        rw [ihP v _ hfv (noDigitHead_cons ',' _ (by decide))]
        show (match parseFields f (printObj ((k₂, v₂) :: fs') ++ '\x7d' :: rest) with
          | some (fs₁, r) => some ((⟨k.data⟩, v) :: fs₁, r)
          | none => none) = some ((k, v) :: (k₂, v₂) :: fs', rest)
        rw [ihR k₂ v₂ fs' rest hffs]

/-- Round trip of the default serializer pair: parsing the stringified
form of any JSON value yields that value. -/
theorem jsonParse_stringify (j : JValue) : jsonParse (jsonStringify j) = some j := by
  have hfuel : fuelJ j ≤ (printJ j).length := fuelJ_le_print j
  have h := (parse_print_aux (printJ j).length).1 j [] hfuel noDigitHead_nil
  rw [List.append_nil] at h
  unfold jsonParse jsonStringify
  rw [show (⟨printJ j⟩ : String).data = printJ j from rfl, h]

/-- The dispatcher's cast of a message's own JSON object recovers the
message: the type, id, name, data, error and timestamp fields read back
exactly. -/
theorem msgOfJson_msgToJson (m : Message) : msgOfJson (msgToJson m) = some m := by
  cases m with
  | request r =>
    obtain ⟨id, proc, d, ts⟩ := r
    cases d <;> cases ts <;>
      simp [msgOfJson, msgToJson, getField, lookupField, optField, tsField, getTs, getErr]
  | response r =>
    obtain ⟨id, d, e, ts⟩ := r
    cases d <;> cases e <;> cases ts <;>
      simp [msgOfJson, msgToJson, getField, lookupField, optField, errField, tsField,
        getTs, getErr]
  | event ev =>
    obtain ⟨id, name, d, ts⟩ := ev
    cases d <;> cases ts <;>
      simp [msgOfJson, msgToJson, getField, lookupField, optField, tsField, getTs, getErr]

/-- A response whose id is not pending is a silent no-op on the web side. -/
theorem handleResponseW_noop (s : WebState) (m : ResponseMessage)
    (h : mapLookup m.id s.pending = none) : handleResponseW s m = (s, []) := by
  simp [handleResponseW, h]

/-- A response whose id is not pending is a silent no-op on the native
side. -/
theorem handleResponseN_noop (s : NativeState) (m : ResponseMessage)
    (h : mapLookup m.id s.pending = none) : handleResponseN s m = (s, []) := by
  simp [handleResponseN, h]

/-- After any handleResponse on the web side, the response's id is no
longer pending. -/
theorem handleResponseW_id_gone (s : WebState) (m : ResponseMessage) :
    mapLookup m.id (handleResponseW s m).1.pending = none := by
  unfold handleResponseW
  cases hl : mapLookup m.id s.pending with
  | none => simp [hl]
  | some p => cases m.error <;> simp [mapLookup_mapDelete_self]

/-- After any handleResponse on the native side, the response's id is no
longer pending. -/
theorem handleResponseN_id_gone (s : NativeState) (m : ResponseMessage) :
    mapLookup m.id (handleResponseN s m).1.pending = none := by
  unfold handleResponseN
  cases hl : mapLookup m.id s.pending with
  | none => simp [hl]
  | some p => cases m.error <;> simp [mapLookup_mapDelete_self]

theorem invokedIds_runHandlers (d : Option JValue) (hs : List Handler) :
    invokedIds (runHandlers d hs) = hs.map Handler.hid := by
  induction hs with
  | nil => rfl
  | cons h rest ih =>
    cases hr : h.run d <;> simp [runHandlers, invokedIds, hr] <;>
      simpa [invokedIds] using ih

theorem sunkErrors_runHandlers (d : Option JValue) (hs : List Handler) :
    sunkErrors (runHandlers d hs) = hs.filterMap (thrownErr d) := by
  induction hs with
  | nil => rfl
  | cons h rest ih =>
    cases hr : h.run d <;> simp [runHandlers, sunkErrors, thrownErr, hr] <;>
      simpa [sunkErrors] using ih

theorem rejections_cleanup_blocks (l : List (String × PendingEntry)) (er : RPCError) :
    rejections (l.flatMap fun p => [.clearTimer p.2.timeoutId, .reject p.1 er]) =
      l.map fun p => (p.1, er) := by
  induction l with
  | nil => rfl
  | cons p rest ih => simpa [rejections] using ih

theorem clearedTimers_cleanup_blocks (l : List (String × PendingEntry)) (er : RPCError) :
    clearedTimers (l.flatMap fun p => [.clearTimer p.2.timeoutId, .reject p.1 er]) =
      l.map fun p => p.2.timeoutId := by
  induction l with
  | nil => rfl
  | cons p rest ih => simpa [clearedTimers] using ih

/-- No branch of the native postMessage invokes a handler. -/
theorem invokedIds_postMessageN (cfg : NativeConfig) (s : NativeState) (msg : Message) :
    invokedIds (postMessageN cfg s msg).2 = [] := by
  unfold postMessageN
  by_cases hav : s.webViewAvailable = false
  · cases msg with
    | event m => simp [hav, invokedIds]
    | request m =>
      cases hl : mapLookup (Message.request m).id s.pending <;> simp [hav, hl, invokedIds]
    | response m =>
      cases hl : mapLookup (Message.response m).id s.pending <;> simp [hav, hl, invokedIds]
  · cases hs : cfg.serialize msg with
    | ok raw => simp [hav, hs, invokedIds]
    | error e =>
      cases msg with
      | request m =>
        cases hl : mapLookup (Message.request m).id s.pending <;> simp [hav, hs, hl, invokedIds]
      | response m => simp [hav, hs, invokedIds]
      | event m => simp [hav, hs, invokedIds]

/-- No branch of the web postToNative invokes a handler. -/
theorem invokedIds_postToNativeW (cfg : WebConfig) (s : WebState) (msg : Message) :
    invokedIds (postToNativeW cfg s msg).2 = [] := by
  unfold postToNativeW
  by_cases hwv : cfg.isWebView = false
  · simp [hwv, invokedIds]
  · cases hs : cfg.serialize msg <;> simp [hwv, hs, invokedIds]

/-- With no registered handlers and no pending entries, an inbound message
of any shape invokes nothing on the native client. -/
theorem invokedIds_handleMessageN_cleared (cfg : NativeConfig) (s : NativeState)
    (hh : s.nativeHandlers = []) (hp : s.pending = []) (raw : String) (now : Int) :
    invokedIds (handleMessageN cfg s raw now).2 = [] := by
  unfold handleMessageN
  cases hd : cfg.deserialize raw with
  | error e => simp [invokedIds]
  | ok j =>
    cases hm : msgOfJson j with
    | none => simp only [hm]; simp [invokedIds]
    | some msg =>
      cases msg with
      | response m =>
        simp only [hm]
        simp [handleResponseN, hp, mapLookup, invokedIds]
      | request m =>
        simp only [hm]
        simpa [handleRequestN, hh, mapLookup] using invokedIds_postMessageN cfg s _
      | event m =>
        simp only [hm]
        simp [handleEventN, hh, mapLookup, invokedIds]

/-- handleEvent on the web client: state unchanged, every registered
listener invoked once in order, throwing listeners forwarded to the sink. -/
theorem handleEventW_spec (s : WebState) (m : EventMessage) :
    (handleEventW s m).1 = s ∧
    invokedIds (handleEventW s m).2 =
      ((mapLookup m.event s.eventHandlers).getD []).map Handler.hid ∧
    sunkErrors (handleEventW s m).2 =
      ((mapLookup m.event s.eventHandlers).getD []).filterMap (thrownErr m.data) := by
  unfold handleEventW
  cases hl : mapLookup m.event s.eventHandlers with
  | none => simp [invokedIds, sunkErrors]
  | some hs =>
    by_cases he : hs.isEmpty
    · rw [List.isEmpty_iff] at he
      subst he
      simp [invokedIds, sunkErrors]
    · simp [he, invokedIds_runHandlers, sunkErrors_runHandlers]

/-- handleEvent on the native client: same shape as the web side. -/
theorem handleEventN_spec (s : NativeState) (m : EventMessage) :
    (handleEventN s m).1 = s ∧
    invokedIds (handleEventN s m).2 =
      ((mapLookup m.event s.nativeHandlers).getD []).map Handler.hid ∧
    sunkErrors (handleEventN s m).2 =
      ((mapLookup m.event s.nativeHandlers).getD []).filterMap (thrownErr m.data) := by
  unfold handleEventN
  cases hl : mapLookup m.event s.nativeHandlers with
  | none => simp [invokedIds, sunkErrors]
  | some hs =>
    by_cases he : hs.isEmpty
    · rw [List.isEmpty_iff] at he
      subst he
      simp [invokedIds, sunkErrors]
    · simp [he, invokedIds_runHandlers, sunkErrors_runHandlers]

/-- C6: dispatching an inbound notification invokes every listener
currently registered for that event, exactly once each, in registration
order (the order of the effect list is program order), on both clients;
the state is unchanged, and exactly the throwing listeners' errors are
forwarded to the error sink, in the same order, so one throwing listener
never prevents the remaining ones from running. -/
theorem c6_notification_dispatch (sW : WebState) (sN : NativeState) (m : EventMessage) :
    (handleEventW sW m).1 = sW ∧
    invokedIds (handleEventW sW m).2 =
      ((mapLookup m.event sW.eventHandlers).getD []).map Handler.hid ∧
    sunkErrors (handleEventW sW m).2 =
      ((mapLookup m.event sW.eventHandlers).getD []).filterMap (thrownErr m.data) ∧
    (handleEventN sN m).1 = sN ∧
    invokedIds (handleEventN sN m).2 =
      ((mapLookup m.event sN.nativeHandlers).getD []).map Handler.hid ∧
    sunkErrors (handleEventN sN m).2 =
      ((mapLookup m.event sN.nativeHandlers).getD []).filterMap (thrownErr m.data) := by
  obtain ⟨w1, w2, w3⟩ := handleEventW_spec sW m
  obtain ⟨n1, n2, n3⟩ := handleEventN_spec sN m
  exact ⟨w1, w2, w3, n1, n2, n3⟩

/-- C8: teardown.  On the web client, cleanup clears the timer of and
rejects every pending entry with the fixed CLEANUP error, empties the
pending store, and removes the window listener, after which an inbound raw
message has no effect at all; on the native client, cleanup clears and
rejects every pending entry with the fixed cleanup Error, empties the
pending store and the handler map, after which an inbound message of any
shape invokes zero handlers. -/
theorem c8_teardown (cfgW : WebConfig) (cfgN : NativeConfig) (sW : WebState) (sN : NativeState) :
    (cleanupW sW).1.pending = [] ∧
    rejections (cleanupW sW).2 =
      (sW.pending.map fun p => (p.1, webViewRPCError "Client cleanup" "CLEANUP")) ∧
    clearedTimers (cleanupW sW).2 = sW.pending.map (fun p => p.2.timeoutId) ∧
    (∀ raw : String, onWindowMessageW cfgW (cleanupW sW).1 raw = ((cleanupW sW).1, [])) ∧
    (cleanupN sN).1.pending = [] ∧
    rejections (cleanupN sN).2 =
      (sN.pending.map fun p => (p.1, jsError "Client cleanup called")) ∧
    clearedTimers (cleanupN sN).2 = sN.pending.map (fun p => p.2.timeoutId) ∧
    (∀ (raw : String) (now : Int),
      invokedIds (handleMessageN cfgN (cleanupN sN).1 raw now).2 = []) := by
  refine ⟨rfl, rejections_cleanup_blocks sW.pending _,
    clearedTimers_cleanup_blocks sW.pending _, ?_, rfl,
    rejections_cleanup_blocks sN.pending _, clearedTimers_cleanup_blocks sN.pending _, ?_⟩
  · intro raw
    simp [cleanupW, onWindowMessageW]
  · intro raw now
    exact invokedIds_handleMessageN_cleared cfgN _ rfl rfl raw now

/-! ## Claim theorems continued -/

/-- C1: a pending request is settled at most once.  On both clients,
handling an inbound response whose id is unknown — or whose request was
already settled or timed out, both of which delete the entry — is a no-op:
it emits no effect at all (no resolve, no reject, no throw) and leaves the
pending store unchanged; and immediately re-delivering any response after
it has been handled is such a no-op. -/
theorem c1_settle_at_most_once (sW : WebState) (sN : NativeState) (m : ResponseMessage)
    (hW : mapLookup m.id sW.pending = none) (hN : mapLookup m.id sN.pending = none) :
    handleResponseW sW m = (sW, []) ∧ handleResponseN sN m = (sN, []) ∧
    (∀ s₁ : WebState,
      handleResponseW (handleResponseW s₁ m).1 m = ((handleResponseW s₁ m).1, [])) ∧
    (∀ s₂ : NativeState,
      handleResponseN (handleResponseN s₂ m).1 m = ((handleResponseN s₂ m).1, [])) := by
  refine ⟨handleResponseW_noop sW m hW, handleResponseN_noop sN m hN, ?_, ?_⟩
  · intro s₁
    exact handleResponseW_noop _ m (handleResponseW_id_gone s₁ m)
  · intro s₂
    exact handleResponseN_noop _ m (handleResponseN_id_gone s₂ m)

/-- Witness for C1 at a concrete state and response. -/
theorem c1_settle_at_most_once_witness :
    handleResponseW ⟨[("b", ⟨3⟩)], [], [], true⟩ ⟨"a", some (.num 1), none, none⟩ =
      (⟨[("b", ⟨3⟩)], [], [], true⟩, []) :=
  (c1_settle_at_most_once ⟨[("b", ⟨3⟩)], [], [], true⟩ ⟨[], [], true⟩
    ⟨"a", some (.num 1), none, none⟩ (by rfl) (by rfl)).1

/-- C2: when the timer armed by call fires (no response arrived within the
window), the pending entry is deleted from the store and the caller's
promise is rejected with a WebViewRPCTimeoutError whose code is TIMEOUT,
whose timeout field is the configured duration, and whose message embeds
the duration's decimal representation. -/
theorem c2_timeout_rejection (cfg : WebConfig) (s : WebState) (id : String) (p : PendingEntry)
    (_hp : mapLookup id s.pending = some p) :
    ∃ err : RPCError,
      fireTimeoutW cfg s id = ({ s with pending := mapDelete id s.pending }, [.reject id err]) ∧
      mapLookup id (fireTimeoutW cfg s id).1.pending = none ∧
      err.code = some "TIMEOUT" ∧
      err.timeout = some cfg.timeout ∧
      ∃ a b : String, err.message = a ++ toString cfg.timeout ++ b := by
  refine ⟨webViewRPCTimeoutError
    ("Request timed out after " ++ toString cfg.timeout ++ "ms") cfg.timeout,
    rfl, ?_, rfl, rfl, "Request timed out after ", "ms", rfl⟩
  simp [fireTimeoutW, mapLookup_mapDelete_self]

/-- Witness for C2 with the spec's example scenario: a 100-unit timeout
produces a rejection whose message embeds the string 100. -/
theorem c2_timeout_rejection_witness :
    ∃ err : RPCError,
      fireTimeoutW ⟨defaultSerializerM, defaultDeserializerM, 100, true⟩
          ⟨[("a", ⟨7⟩)], [], [], true⟩ "a" =
        ({ pending := mapDelete "a" [("a", ⟨7⟩)], eventHandlers := [], procedureHandlers := [],
            listenerAttached := true }, [.reject "a" err]) ∧
      mapLookup "a" (fireTimeoutW ⟨defaultSerializerM, defaultDeserializerM, 100, true⟩
          ⟨[("a", ⟨7⟩)], [], [], true⟩ "a").1.pending = none ∧
      err.code = some "TIMEOUT" ∧
      err.timeout = some 100 ∧
      ∃ a b : String, err.message = a ++ "100" ++ b :=
  c2_timeout_rejection ⟨defaultSerializerM, defaultDeserializerM, 100, true⟩
    ⟨[("a", ⟨7⟩)], [], [], true⟩ "a" ⟨7⟩ (by rfl)

/-- C10: an inbound response that carries both an error field and a data
field settles the matching pending request from the error: on both
clients the promise is rejected with a WebViewRPCError carrying the
error's message and code, no resolve effect is emitted, and the data field
plays no role (replacing it changes nothing). -/
theorem c10_error_precedence (sW : WebState) (sN : NativeState) (m : ResponseMessage)
    (e : ErrInfo) (pW pN : PendingEntry)
    (he : m.error = some e)
    (hpW : mapLookup m.id sW.pending = some pW)
    (hpN : mapLookup m.id sN.pending = some pN) :
    handleResponseW sW m = ({ sW with pending := mapDelete m.id sW.pending },
      [.clearTimer pW.timeoutId, .reject m.id (webViewRPCError e.message e.code)]) ∧
    handleResponseN sN m = ({ sN with pending := mapDelete m.id sN.pending },
      [.clearTimer pN.timeoutId, .reject m.id (webViewRPCError e.message e.code)]) ∧
    (∀ d : Option JValue,
      handleResponseW sW { m with data := d } = handleResponseW sW m ∧
      handleResponseN sN { m with data := d } = handleResponseN sN m) := by
  refine ⟨by simp [handleResponseW, hpW, he], by simp [handleResponseN, hpN, he], ?_⟩
  intro d
  constructor
  · simp [handleResponseW, hpW, he]
  · simp [handleResponseN, hpN, he]

/-- Witness for C10 at a concrete response carrying both fields. -/
theorem c10_error_precedence_witness :
    handleResponseW ⟨[("a", ⟨7⟩)], [], [], true⟩
        ⟨"a", some (.num 1), some ⟨"bad", "SOME_CODE"⟩, none⟩ =
      ({ pending := mapDelete "a" [("a", ⟨7⟩)], eventHandlers := [], procedureHandlers := [],
          listenerAttached := true },
        [.clearTimer 7, .reject "a" (webViewRPCError "bad" "SOME_CODE")]) :=
  (c10_error_precedence ⟨[("a", ⟨7⟩)], [], [], true⟩ ⟨[("a", ⟨9⟩)], [], true⟩
    ⟨"a", some (.num 1), some ⟨"bad", "SOME_CODE"⟩, none⟩ ⟨"bad", "SOME_CODE"⟩ ⟨7⟩ ⟨9⟩
    (by rfl) (by rfl) (by rfl)).1

/-- C3, counterexample to the claim as stated: in the web client, a request
whose serialization throws is NOT settled — with a throwing serializer and
the request's own entry pending, postToNative leaves the entry in the store
(the lookup still succeeds) and emits no rejection at all, so the caller
waits for the timeout. -/
theorem c3_counterexample :
    (mapLookup "a" (postToNativeW
        ⟨fun _ => .error "Serialization failed", defaultDeserializerM, 5000, true⟩
        ⟨[("a", ⟨7⟩)], [], [], true⟩
        (.request ⟨"a", "share", none, none⟩)).1.pending).isSome = true ∧
    rejectedIds (postToNativeW
        ⟨fun _ => .error "Serialization failed", defaultDeserializerM, 5000, true⟩
        ⟨[("a", ⟨7⟩)], [], [], true⟩
        (.request ⟨"a", "share", none, none⟩)).2 = [] := by
  exact ⟨rfl, rfl⟩

/-- C3, amended: when serializing an outbound request throws, both clients
forward the error to the error sink; the native client additionally clears
the timer, removes the request's own pending entry and rejects it with
that error immediately, while the web client leaves the pending entry
untouched (it is settled only when the timeout later fires). -/
theorem c3_encode_failure (cfgW : WebConfig) (cfgN : NativeConfig)
    (sW : WebState) (sN : NativeState) (m : RequestMessage) (eW e : String) (p : PendingEntry)
    (hwv : cfgW.isWebView = true)
    (hserW : cfgW.serialize (.request m) = .error eW)
    (hav : sN.webViewAvailable = true)
    (hserN : cfgN.serialize (.request m) = .error e)
    (hp : mapLookup m.id sN.pending = some p) :
    postToNativeW cfgW sW (.request m) = (sW, [.errorSink (jsError eW)]) ∧
    postMessageN cfgN sN (.request m) =
      ({ sN with pending := mapDelete m.id sN.pending },
        [.errorSink (jsError e), .clearTimer p.timeoutId, .reject m.id (jsError e)]) ∧
    mapLookup m.id (postMessageN cfgN sN (.request m)).1.pending = none := by
  refine ⟨?_, ?_, ?_⟩
  · simp [postToNativeW, hwv, hserW]
  · simp [postMessageN, hav, hserN, Message.id, hp]
  · simp [postMessageN, hav, hserN, Message.id, hp, mapLookup_mapDelete_self]

/-- Witness for C3's amended theorem at concrete clients. -/
theorem c3_encode_failure_witness :
    postToNativeW ⟨fun _ => .error "boom ser", defaultDeserializerM, 5000, true⟩
        ⟨[("a", ⟨7⟩)], [], [], true⟩ (.request ⟨"a", "share", none, none⟩) =
      (⟨[("a", ⟨7⟩)], [], [], true⟩, [.errorSink (jsError "boom ser")]) ∧
    postMessageN ⟨fun _ => .error "boom ser", defaultDeserializerM, 5000⟩
        ⟨[("a", ⟨7⟩)], [], true⟩ (.request ⟨"a", "share", none, none⟩) =
      ({ pending := mapDelete "a" [("a", ⟨7⟩)], nativeHandlers := [], webViewAvailable := true },
        [.errorSink (jsError "boom ser"), .clearTimer 7, .reject "a" (jsError "boom ser")]) ∧
    mapLookup "a" (postMessageN ⟨fun _ => .error "boom ser", defaultDeserializerM, 5000⟩
        ⟨[("a", ⟨7⟩)], [], true⟩ (.request ⟨"a", "share", none, none⟩)).1.pending = none :=
  c3_encode_failure ⟨fun _ => .error "boom ser", defaultDeserializerM, 5000, true⟩
    ⟨fun _ => .error "boom ser", defaultDeserializerM, 5000⟩
    ⟨[("a", ⟨7⟩)], [], [], true⟩ ⟨[("a", ⟨7⟩)], [], true⟩
    ⟨"a", "share", none, none⟩ "boom ser" "boom ser" ⟨7⟩
    rfl rfl rfl rfl rfl

theorem invokedIds_nil : invokedIds [] = [] := rfl

theorem invokedIds_cons_invoke (h : Nat) (d : Option JValue) (l : List Effect) :
    invokedIds (.invoke h d :: l) = h :: invokedIds l := by
  simp [invokedIds]

theorem invokedIds_cons_errorSink (e : RPCError) (l : List Effect) :
    invokedIds (.errorSink e :: l) = invokedIds l := by
  simp [invokedIds]

theorem invokedIds_append (a b : List Effect) :
    invokedIds (a ++ b) = invokedIds a ++ invokedIds b := by
  simp [invokedIds]

/-- Effect of registerNativeHandler on the registered set for its name. -/
theorem lookup_registerNativeHandlerN (s : NativeState) (name : String) (h : Handler) :
    mapLookup name (registerNativeHandlerN s name h).nativeHandlers
      = some (addHandler ((mapLookup name s.nativeHandlers).getD []) h) := by
  unfold registerNativeHandlerN
  cases hl : mapLookup name s.nativeHandlers <;>
    simp [hl, mapLookup_mapSet_self, addHandler]

/-- Registering f and then g for the same name yields the two-element set
in registration order. -/
theorem lookup_register_twice (sN : NativeState) (op : String) (f g : Handler)
    (hne : f.hid ≠ g.hid) (hnone : mapLookup op sN.nativeHandlers = none) :
    mapLookup op (registerNativeHandlerN (registerNativeHandlerN sN op f) op g).nativeHandlers
      = some [f, g] := by
  rw [lookup_registerNativeHandlerN, lookup_registerNativeHandlerN, hnone]
  simp [addHandler, hne]

/-- C4, counterexample to the claim as stated: in the web client, after
registering handler f (id 1) and then g (id 2) for the procedure navigate,
calling f's returned unregister does NOT leave g registered — the
operation's handler slot becomes empty. -/
theorem c4_counterexample :
    ((mapLookup "navigate" (unregisterWebProcedureW
        (registerWebProcedureW
          (registerWebProcedureW ⟨[], [], [], true⟩ "navigate" ⟨1, fun _ => .ok none⟩)
          "navigate" ⟨2, fun _ => .ok none⟩)
        "navigate").procedureHandlers).map Handler.hid) ≠ some 2 := by
  decide

/-- C4, amended: the stale-unregister guard does not exist.  In the web
client, registration replaces the previous handler, but the returned
unregister deletes whatever handler currently occupies the operation's
slot, so a stale unregister removes the replacement handler g.  In the
native client, registration accumulates handlers in a set (no
replacement), and a stale unregister removes only its own handler f,
leaving g registered. -/
theorem c4_stale_unregister (sW : WebState) (sN : NativeState) (op : String) (f g : Handler)
    (hne : f.hid ≠ g.hid) (hnone : mapLookup op sN.nativeHandlers = none) :
    mapLookup op
      (registerWebProcedureW (registerWebProcedureW sW op f) op g).procedureHandlers = some g ∧
    mapLookup op (unregisterWebProcedureW
      (registerWebProcedureW (registerWebProcedureW sW op f) op g) op).procedureHandlers = none ∧
    mapLookup op
      (registerNativeHandlerN (registerNativeHandlerN sN op f) op g).nativeHandlers
        = some [f, g] ∧
    mapLookup op (unregisterNativeHandlerN
      (registerNativeHandlerN (registerNativeHandlerN sN op f) op g) op f.hid).nativeHandlers
        = some [g] := by
  have hreg2 := lookup_register_twice sN op f g hne hnone
  refine ⟨?_, ?_, hreg2, ?_⟩
  · simp [registerWebProcedureW, mapLookup_mapSet_self]
  · simp [unregisterWebProcedureW, mapLookup_mapDelete_self]
  · have hgf : g.hid ≠ f.hid := fun h => hne h.symm
    unfold unregisterNativeHandlerN
    rw [hreg2]
    simp [removeHandler, hgf, mapLookup_mapSet_self]

/-- Witness for C4's amended theorem at concrete handlers. -/
theorem c4_stale_unregister_witness :
    mapLookup "navigate"
      (registerWebProcedureW (registerWebProcedureW ⟨[], [], [], true⟩ "navigate"
          ⟨1, fun _ => .ok none⟩) "navigate" ⟨2, fun _ => .ok none⟩).procedureHandlers
        = some ⟨2, fun _ => .ok none⟩ ∧
    mapLookup "navigate" (unregisterWebProcedureW
      (registerWebProcedureW (registerWebProcedureW ⟨[], [], [], true⟩ "navigate"
          ⟨1, fun _ => .ok none⟩) "navigate" ⟨2, fun _ => .ok none⟩)
      "navigate").procedureHandlers = none ∧
    mapLookup "navigate"
      (registerNativeHandlerN (registerNativeHandlerN ⟨[], [], true⟩ "navigate"
          ⟨1, fun _ => .ok none⟩) "navigate" ⟨2, fun _ => .ok none⟩).nativeHandlers
        = some [⟨1, fun _ => .ok none⟩, ⟨2, fun _ => .ok none⟩] ∧
    mapLookup "navigate" (unregisterNativeHandlerN
      (registerNativeHandlerN (registerNativeHandlerN ⟨[], [], true⟩ "navigate"
          ⟨1, fun _ => .ok none⟩) "navigate" ⟨2, fun _ => .ok none⟩)
      "navigate" 1).nativeHandlers = some [⟨2, fun _ => .ok none⟩] :=
  c4_stale_unregister ⟨[], [], [], true⟩ ⟨[], [], true⟩ "navigate"
    ⟨1, fun _ => .ok none⟩ ⟨2, fun _ => .ok none⟩ (by decide) rfl

/-- C5, counterexample to the claim as stated: in the native client, after
registering handler f (id 1) and then g (id 2) for the procedure navigate,
an inbound request for navigate does not invoke g — the first-registered
handler f runs instead. -/
theorem c5_counterexample :
    invokedIds (handleRequestN ⟨fun _ => .ok "", defaultDeserializerM, 5000⟩
      (registerNativeHandlerN
        (registerNativeHandlerN ⟨[], [], true⟩ "navigate" ⟨1, fun _ => .ok none⟩)
        "navigate" ⟨2, fun _ => .ok none⟩)
      ⟨"r1", "navigate", none, none⟩ 0).2 ≠ [2] := by
  decide

/-- C5, amended: at most one handler executes per inbound request on both
clients.  In the web client, registration replaces the previous handler
and an inbound request invokes the latest handler g and only g; in the
native client, registration accumulates handlers in a set and an inbound
request invokes only the FIRST-registered handler f. -/
theorem c5_single_handler (cfgW : WebConfig) (cfgN : NativeConfig)
    (sW : WebState) (sN : NativeState) (op : String) (f g : Handler)
    (d : Option JValue) (id : String) (ts : Option Int) (now : Int)
    (hne : f.hid ≠ g.hid) (hnone : mapLookup op sN.nativeHandlers = none) :
    invokedIds (handleRequestW cfgW
      (registerWebProcedureW (registerWebProcedureW sW op f) op g)
      ⟨id, op, d, ts⟩).2 = [g.hid] ∧
    invokedIds (handleRequestN cfgN
      (registerNativeHandlerN (registerNativeHandlerN sN op f) op g)
      ⟨id, op, d, ts⟩ now).2 = [f.hid] ∧
    (∀ s₁ : WebState, (invokedIds (handleRequestW cfgW s₁ ⟨id, op, d, ts⟩).2).length ≤ 1) ∧
    (∀ s₂ : NativeState,
      (invokedIds (handleRequestN cfgN s₂ ⟨id, op, d, ts⟩ now).2).length ≤ 1) := by
  have hreg2 := lookup_register_twice sN op f g hne hnone
  refine ⟨?_, ?_, ?_, ?_⟩
  · unfold handleRequestW
    simp only [registerWebProcedureW]
    rw [mapLookup_mapSet_self]
    cases hr : g.run d <;>
      simp [hr, invokedIds_cons_invoke, invokedIds_cons_errorSink, invokedIds_postToNativeW]
  · unfold handleRequestN
    rw [show (⟨id, op, d, ts⟩ : RequestMessage).procedure = op from rfl, hreg2]
    cases hr : f.run d <;>
      simp [hr, invokedIds_cons_invoke, invokedIds_cons_errorSink, invokedIds_append,
        invokedIds_nil, invokedIds_postMessageN]
  · intro s₁
    unfold handleRequestW
    cases hl : mapLookup op s₁.procedureHandlers with
    | none => simp [hl, invokedIds_postToNativeW]
    | some h =>
      cases hr : h.run d <;>
        simp [hl, hr, invokedIds_cons_invoke, invokedIds_cons_errorSink,
          invokedIds_postToNativeW]
  · intro s₂
    unfold handleRequestN
    cases hl : mapLookup op s₂.nativeHandlers with
    | none => simp [hl, invokedIds_postMessageN]
    | some hs =>
      cases hs with
      | nil => simp [hl, invokedIds_postMessageN]
      | cons h rest =>
        cases hr : h.run d <;>
          simp [hl, hr, invokedIds_cons_invoke, invokedIds_cons_errorSink, invokedIds_append,
            invokedIds_nil, invokedIds_postMessageN]

/-- Witness for C5's amended theorem at concrete handlers and clients. -/
theorem c5_single_handler_witness :
    invokedIds (handleRequestW ⟨fun _ => .ok "", defaultDeserializerM, 5000, true⟩
      (registerWebProcedureW (registerWebProcedureW ⟨[], [], [], true⟩ "navigate"
        ⟨1, fun _ => .ok none⟩) "navigate" ⟨2, fun _ => .ok none⟩)
      ⟨"r1", "navigate", none, none⟩).2 = [2] ∧
    invokedIds (handleRequestN ⟨fun _ => .ok "", defaultDeserializerM, 5000⟩
      (registerNativeHandlerN (registerNativeHandlerN ⟨[], [], true⟩ "navigate"
        ⟨1, fun _ => .ok none⟩) "navigate" ⟨2, fun _ => .ok none⟩)
      ⟨"r1", "navigate", none, none⟩ 0).2 = [1] ∧
    (∀ s₁ : WebState,
      (invokedIds (handleRequestW ⟨fun _ => .ok "", defaultDeserializerM, 5000, true⟩ s₁
        ⟨"r1", "navigate", none, none⟩).2).length ≤ 1) ∧
    (∀ s₂ : NativeState,
      (invokedIds (handleRequestN ⟨fun _ => .ok "", defaultDeserializerM, 5000⟩ s₂
        ⟨"r1", "navigate", none, none⟩ 0).2).length ≤ 1) :=
  c5_single_handler ⟨fun _ => .ok "", defaultDeserializerM, 5000, true⟩
    ⟨fun _ => .ok "", defaultDeserializerM, 5000⟩ ⟨[], [], [], true⟩ ⟨[], [], true⟩
    "navigate" ⟨1, fun _ => .ok none⟩ ⟨2, fun _ => .ok none⟩ none "r1" none 0
    (by decide) rfl

/-- C9: round trip through the default serializer pair.  For a message of
any of the three kinds, decoding (JSON.parse) the default encoding
(JSON.stringify) of the message succeeds and yields a value with the same
type discriminant, the same procedure/event name, and the same data
payload as the original message. -/
theorem c9_roundtrip (m : Message) :
    jsonParse (jsonStringify (msgToJson m)) = some (msgToJson m) ∧
    getField (msgToJson m) "type" = some (.str (kindStr m)) ∧
    (match m with
     | .request r => getField (msgToJson m) "procedure" = some (.str r.procedure)
     | .event e => getField (msgToJson m) "event" = some (.str e.event)
     | .response _ => True) ∧
    getField (msgToJson m) "data" = payloadOf m := by
  refine ⟨jsonParse_stringify (msgToJson m), ?_, ?_, ?_⟩
  · cases m <;>
      simp [msgToJson, getField, lookupField, optField, errField, tsField, kindStr]
  · cases m with
    | request r =>
      simp [msgToJson, getField, lookupField, optField, errField, tsField]
    | response r => trivial
    | event ev =>
      simp [msgToJson, getField, lookupField, optField, errField, tsField]
  · cases m with
    | request r =>
      obtain ⟨id, proc, d, ts⟩ := r
      cases d <;> cases ts <;>
        simp [msgToJson, getField, lookupField, optField, errField, tsField, payloadOf]
    | response r =>
      obtain ⟨id, d, e, ts⟩ := r
      cases d <;> cases e <;> cases ts <;>
        simp [msgToJson, getField, lookupField, optField, errField, tsField, payloadOf]
    | event ev =>
      obtain ⟨id, name, d, ts⟩ := ev
      cases d <;> cases ts <;>
        simp [msgToJson, getField, lookupField, optField, errField, tsField, payloadOf]

/-- C7: a handler that throws.  On the web callee, an inbound request whose
registered handler throws an Error with message em makes handleRequest
forward the error to the local error sink and post back — through the
default serializer — a response carrying error code HANDLER_ERROR and
message em; feeding that wire string to the native caller (with the
default deserializer), whose pending map holds the request id, rejects the
caller's promise with a typed WebViewRPCError carrying exactly that code
and message. -/
theorem c7_handler_error (cfgW : WebConfig) (cfgN : NativeConfig) (sW : WebState)
    (sN : NativeState) (m : RequestMessage) (h : Handler) (em : String) (p : PendingEntry)
    (now : Int)
    (hwv : cfgW.isWebView = true)
    (hser : cfgW.serialize = defaultSerializerM)
    (hdes : cfgN.deserialize = defaultDeserializerM)
    (hh : mapLookup m.procedure sW.procedureHandlers = some h)
    (hrun : h.run m.data = .error em)
    (hp : mapLookup m.id sN.pending = some p) :
    handleRequestW cfgW sW m =
      (sW, [.invoke h.hid m.data, .errorSink (jsError em),
        .postRaw (jsonStringify (msgToJson
          (.response ⟨m.id, none, some ⟨em, "HANDLER_ERROR"⟩, none⟩)))]) ∧
    handleMessageN cfgN sN
        (jsonStringify (msgToJson (.response ⟨m.id, none, some ⟨em, "HANDLER_ERROR"⟩, none⟩)))
        now =
      ({ sN with pending := mapDelete m.id sN.pending },
        [.clearTimer p.timeoutId, .reject m.id (webViewRPCError em "HANDLER_ERROR")]) := by
  constructor
  · simp [handleRequestW, hh, hrun, postToNativeW, hwv, hser, defaultSerializerM]
  · simp [handleMessageN, hdes, defaultDeserializerM, jsonParse_stringify,
      msgOfJson_msgToJson, handleResponseN, hp]

/-- Witness for C7 at a concrete pair of clients and the spec's Error boom
example. -/
theorem c7_handler_error_witness :
    handleRequestW ⟨defaultSerializerM, defaultDeserializerM, 5000, true⟩
      ⟨[], [], [("doThing", ⟨1, fun _ => .error "boom"⟩)], true⟩
      ⟨"r1", "doThing", none, none⟩ =
      (⟨[], [], [("doThing", ⟨1, fun _ => .error "boom"⟩)], true⟩,
        [.invoke 1 none, .errorSink (jsError "boom"),
          .postRaw (jsonStringify (msgToJson
            (.response ⟨"r1", none, some ⟨"boom", "HANDLER_ERROR"⟩, none⟩)))]) ∧
    handleMessageN ⟨defaultSerializerM, defaultDeserializerM, 5000⟩
        ⟨[("r1", ⟨7⟩)], [], true⟩
        (jsonStringify (msgToJson (.response ⟨"r1", none, some ⟨"boom", "HANDLER_ERROR"⟩, none⟩)))
        0 =
      ({ pending := mapDelete "r1" [("r1", ⟨7⟩)], nativeHandlers := [], webViewAvailable := true },
        [.clearTimer 7, .reject "r1" (webViewRPCError "boom" "HANDLER_ERROR")]) :=
  c7_handler_error ⟨defaultSerializerM, defaultDeserializerM, 5000, true⟩
    ⟨defaultSerializerM, defaultDeserializerM, 5000⟩
    ⟨[], [], [("doThing", ⟨1, fun _ => .error "boom"⟩)], true⟩
    ⟨[("r1", ⟨7⟩)], [], true⟩
    ⟨"r1", "doThing", none, none⟩ ⟨1, fun _ => .error "boom"⟩ "boom" ⟨7⟩ 0
    rfl rfl rfl rfl rfl rfl

end WebViewRpc
